import Mathlib

/-!
Verification of the GTT KPI Report core utilities.

Shallow embedding of the time-series aggregation, personal-records tracking,
regression-selection and date-parsing utilities of the repository
(`src/utils/recordsTracker.ts`, `src/utils/timeSeriesUtils.ts`,
`src/utils/regression.ts`, `src/utils/storage.ts`), together with proofs of
the specified properties.

Modelling conventions:
* JS `number` values are modelled as rationals (`ℚ`); the claims under review
  only involve comparisons, sums and divisions that are exact in `ℚ`.
* A JS `Date` is modelled by its day number relative to 1970-01-01 (an `Int`);
  all dates constructed by the code under analysis are midnights, and the
  embedding assumes the host timezone is UTC, so the time-of-day component is
  always zero and is dropped.
* Wall-clock timestamps (`setAt`, `timestamp`, `lastUpdated` fields) are impure
  reads of the ambient clock and carry no information relevant to the claims;
  they are omitted from the embedded records.
* Code that can throw (formatting an invalid date) is modelled with `Option`.
-/

namespace GTT

/-! ## Calendar model (JS `Date`)

`new Date(y, m, d)` (local time, midnight) is modelled as the civil-calendar
day number of (y, m+1, d) relative to 1970-01-01, with the same field
normalisation JS performs (`MakeDay`): month overflows into the year, day
overflows into the month. -/

/-- Day number of the civil date y-m-d (m ∈ 1..12, d ∈ 1..last) relative to
1970-01-01 (Howard Hinnant's `days_from_civil`, exact for all years). -/
def daysFromCivil (y m d : Int) : Int :=
  let y' := y - (if m ≤ 2 then 1 else 0)
  let era := (if 0 ≤ y' then y' else y' - 399).tdiv 400
  let yoe := y' - era * 400
  let doy := ((153 * (m + (if 2 < m then -3 else 9)) + 2).tdiv 5) + d - 1
  let doe := yoe * 365 + yoe.tdiv 4 - yoe.tdiv 100 + doy
  era * 146097 + doe - 719468

/-- Civil date (y, m, d) (m ∈ 1..12) of a day number (Hinnant's
`civil_from_days`). -/
def civilFromDays (z : Int) : Int × Int × Int :=
  let z' := z + 719468
  let era := (if 0 ≤ z' then z' else z' - 146096).tdiv 146097
  let doe := z' - era * 146097
  let yoe := (doe - doe.tdiv 1460 + doe.tdiv 36524 - doe.tdiv 146096).tdiv 365
  let y := yoe + era * 400
  let doy := doe - (365 * yoe + yoe.tdiv 4 - yoe.tdiv 100)
  let mp := (5 * doy + 2).tdiv 153
  let d := doy - (153 * mp + 2).tdiv 5 + 1
  let m := mp + (if mp < 10 then 3 else -9)
  (y + (if m ≤ 2 then 1 else 0), m, d)

/-- JS `new Date(year, month, day)` (month 0-based, fields may overflow):
`MakeDay` normalises the month into the year and lets the day offset the
month start. Result is the day number of the date. -/
def mkDate (year month day : Int) : Int :=
  let ym := year + month.fdiv 12
  let mn := month.emod 12
  daysFromCivil ym (mn + 1) 1 + (day - 1)

/-- JS `Date.prototype.getFullYear`. -/
def getFullYear (t : Int) : Int := (civilFromDays t).1

/-- JS `Date.prototype.getMonth` (0-based). -/
def getMonth (t : Int) : Int := (civilFromDays t).2.1 - 1

/-- JS `Date.prototype.getDate` (day of month, 1-based). -/
def getDate (t : Int) : Int := (civilFromDays t).2.2

/-- JS `Date.prototype.getDay` (0 = Sunday .. 6 = Saturday);
1970-01-01 was a Thursday (4). -/
def getDay (t : Int) : Int := (t + 4).emod 7

/-- JS `d.setDate(n)`: reinterpret day-of-month `n` in `d`'s year/month. -/
def setDate (t n : Int) : Int := mkDate (getFullYear t) (getMonth t) n

/-- Left-pad the decimal representation of `n` with zeroes to `len` digits
(`String.padStart` / manual padding in the source). -/
def padNum (n : Int) (len : Nat) : String :=
  let s := toString n.toNat
  let pad := len - s.length
  String.mk (List.replicate pad '0') ++ s

/-- Strip leading and trailing whitespace from a character list
(JS `String.prototype.trim`). -/
def trimChars (cs : List Char) : List Char :=
  ((cs.dropWhile Char.isWhitespace).reverse.dropWhile Char.isWhitespace).reverse

/-- JS `trim`, structurally on the character list. -/
def jsTrim (s : String) : String := String.mk (trimChars s.toList)

/-- One decimal digit. -/
def digitVal (c : Char) : Option Nat :=
  if '0' ≤ c ∧ c ≤ '9' then some (c.toNat - '0'.toNat) else none

/-- Value of an all-digit character run. -/
def digitsToNatAux (acc : Nat) : List Char → Option Nat
  | [] => some acc
  | c :: cs =>
    match digitVal c with
    | some d => digitsToNatAux (acc * 10 + d) cs
    | none => none

/-- Value of a non-empty all-digit character list; `none` otherwise. -/
def digitsToNat : List Char → Option Nat
  | [] => none
  | cs => digitsToNatAux 0 cs

/-- JS `String.prototype.split` with a one-character separator. -/
def splitOnChar (sep : Char) : List Char → List (List Char)
  | [] => [[]]
  | c :: rest =>
    if c = sep then [] :: splitOnChar sep rest
    else
      match splitOnChar sep rest with
      | h :: tail => (c :: h) :: tail
      | [] => [[c]]

namespace RecordsTracker

/-! ## `src/utils/recordsTracker.ts` -/

/-- `formatDate`: `date.toISOString().split('T')[0]`, i.e. `YYYY-MM-DD`
(UTC; the embedding assumes the host timezone is UTC). -/
def formatDate (t : Int) : String :=
  let c := civilFromDays t
  padNum c.1 4 ++ "-" ++ padNum c.2.1 2 ++ "-" ++ padNum c.2.2 2

/-- JS `Number(s)` on a split date component, restricted to the integral
strings that occur as date components: `Number("") = 0` (whitespace-only
likewise), otherwise the string must be an optionally-signed decimal integer
(a non-numeric component gives `NaN`, modelled as `none`). -/
def jsNumber (s : Option String) : Option Int :=
  match s with
  | none => none
  | some s =>
    match trimChars s.toList with
    | [] => some 0
    | '-' :: cs => (digitsToNat cs).map fun n => -(n : Int)
    | '+' :: cs => (digitsToNat cs).map fun n => (n : Int)
    | cs => (digitsToNat cs).map fun n => (n : Int)

/-- `parseDate` (recordsTracker): split on `-`, `new Date(y, m-1, d)`.
`none` models an Invalid Date (whose later `toISOString` would throw). -/
def parseDate (dateStr : String) : Option Int :=
  let parts := (splitOnChar '-' dateStr.toList).map String.mk
  match jsNumber (parts.get? 0), jsNumber (parts.get? 1), jsNumber (parts.get? 2) with
  | some y, some m, some d => some (mkDate y (m - 1) d)
  | _, _, _ => none

/-- `getWeekStart`: Monday of the week containing `t`. -/
def getWeekStart (t : Int) : Int :=
  let day := getDay t
  let diff := getDate t - day + (if day = 0 then -6 else 1)
  setDate t diff

/-- `getWeekEnd`: six days past the week's Monday. -/
def getWeekEnd (t : Int) : Int :=
  let start := getWeekStart t
  setDate start (getDate start + 6)

/-- `getMonthStart`. -/
def getMonthStart (t : Int) : Int := mkDate (getFullYear t) (getMonth t) 1

/-- `getMonthEnd`: day 0 of the next month. -/
def getMonthEnd (t : Int) : Int := mkDate (getFullYear t) (getMonth t + 1) 0

/-- `getQuarterStart`. -/
def getQuarterStart (t : Int) : Int :=
  let quarter := (getMonth t).fdiv 3
  mkDate (getFullYear t) (quarter * 3) 1

/-- `getQuarterEnd`. -/
def getQuarterEnd (t : Int) : Int :=
  let quarter := (getMonth t).fdiv 3
  mkDate (getFullYear t) ((quarter + 1) * 3) 0

end RecordsTracker

/-! ## Data model (`src/types.ts`)

The `types.ts` file itself is not part of the provided sources; the shapes
below are reconstructed from their uses in `timeSeriesUtils.ts` /
`recordsTracker.ts` and from the spec's data-model section (numeric counters,
a date key that may be the sentinel `"unknown"`). -/

/-- One calendar day's raw event counts for one agent. -/
structure DailyAgentMetrics where
  date : String
  trips : ℚ
  quotes : ℚ
  passthroughs : ℚ
  hotPasses : ℚ
  bookings : ℚ
  nonConverted : ℚ
deriving DecidableEq

/-- An agent's named daily series. -/
structure AgentTimeSeries where
  agentName : String
  dailyMetrics : List DailyAgentMetrics
deriving DecidableEq

/-- A date plus the six derived percentage ratios. -/
structure DailyRatioPoint where
  date : String
  tq : ℚ
  tp : ℚ
  pq : ℚ
  hp : ℚ
  bk : ℚ
  nc : ℚ
deriving DecidableEq

/-- The six ratio keys of a `DailyRatioPoint` (`MetricKey`). -/
inductive MetricKey | tq | tp | pq | hp | bk | nc
deriving DecidableEq

/-- The aggregate root produced by the Time-Series Builder. -/
structure TimeSeriesData where
  dateRangeStart : String
  dateRangeEnd : String
  agents : List AgentTimeSeries
  departmentDaily : List DailyRatioPoint
  seniorDaily : List DailyRatioPoint
  nonSeniorDaily : List DailyRatioPoint
deriving DecidableEq

namespace RecordsTracker

/-- Volume and rate metrics tracked by the records ledger
(`VolumeMetric | RateMetric`). -/
inductive Metric | trips | quotes | passthroughs | tq | tp | pq
deriving DecidableEq

/-- `TimePeriod`. -/
inductive TimePeriod | week | month | quarter
deriving DecidableEq

/-- Is the metric one of the three volume metrics? -/
def Metric.isVolume : Metric → Bool
  | .trips | .quotes | .passthroughs => true
  | _ => false

/-- `RecordEntry` (the impure `setAt` wall-clock timestamp is omitted). -/
structure RecordEntry where
  value : ℚ
  periodStart : String
  periodEnd : String
deriving DecidableEq

/-- The week/month/quarter slots of one volume metric. -/
structure VolumeSlots where
  week : Option RecordEntry
  month : Option RecordEntry
  quarter : Option RecordEntry
deriving DecidableEq

/-- The month/quarter slots of one rate metric. -/
structure RateSlots where
  month : Option RecordEntry
  quarter : Option RecordEntry
deriving DecidableEq

/-- `AgentRecords`. -/
structure AgentRecords where
  agentName : String
  trips : VolumeSlots
  quotes : VolumeSlots
  passthroughs : VolumeSlots
  tq : RateSlots
  tp : RateSlots
  pq : RateSlots
deriving DecidableEq

/-- `RecordUpdate` (the impure `timestamp` field is omitted). -/
structure RecordUpdate where
  agentName : String
  metric : Metric
  period : TimePeriod
  previousValue : Option ℚ
  newValue : ℚ
  periodStart : String
  periodEnd : String
deriving DecidableEq

/-- `AllRecords` (the impure `lastUpdated` timestamp is omitted); the JS
object keyed by agent name is modelled as a function to `Option`. -/
structure AllRecords where
  agents : String → Option AgentRecords

/-- `PeriodData`: one week/month/quarter bucket. -/
structure PeriodData where
  periodStart : String
  periodEnd : String
  trips : ℚ
  quotes : ℚ
  passthroughs : ℚ
deriving DecidableEq

/-- Inner step of `aggregateByPeriod`'s map update: find the entry with the
key `periodStart_periodEnd` and add the day's counters to it in place, or
append a fresh entry (JS `Map` preserves insertion order). -/
def addToPeriod (acc : List PeriodData) (ps pe : String) (day : DailyAgentMetrics) :
    List PeriodData :=
  match acc with
  | [] => [⟨ps, pe, day.trips, day.quotes, day.passthroughs⟩]
  | p :: rest =>
    if p.periodStart ++ "_" ++ p.periodEnd = ps ++ "_" ++ pe then
      { p with trips := p.trips + day.trips, quotes := p.quotes + day.quotes,
               passthroughs := p.passthroughs + day.passthroughs } :: rest
    else
      p :: addToPeriod rest ps pe day

/-- Loop of `aggregateByPeriod` over the daily metrics, threading the bucket
map. `none` models the `RangeError` thrown by `toISOString` on an Invalid
Date (unparseable non-`"unknown"` date string). -/
def aggregateAux (getPeriodStart getPeriodEnd : Int → Int)
    (acc : List PeriodData) : List DailyAgentMetrics → Option (List PeriodData)
  | [] => some acc
  | day :: rest =>
    if day.date = "unknown" then aggregateAux getPeriodStart getPeriodEnd acc rest
    else
      match parseDate day.date with
      | none => none
      | some date =>
        aggregateAux getPeriodStart getPeriodEnd
          (addToPeriod acc (formatDate (getPeriodStart date))
            (formatDate (getPeriodEnd date)) day) rest

/-- `aggregateByPeriod`. -/
def aggregateByPeriod (dailyMetrics : List DailyAgentMetrics)
    (getPeriodStart getPeriodEnd : Int → Int) : Option (List PeriodData) :=
  aggregateAux getPeriodStart getPeriodEnd [] dailyMetrics

/-- A period bucket paired with the one value relevant to a record check
(`period[metric]` for a volume metric, `period.rate` for a rate metric). -/
structure Bucket where
  value : ℚ
  periodStart : String
  periodEnd : String
deriving DecidableEq

/-- Pure part of `calculatePeriodRate`: derive each bucket's rate
(0 on a zero denominator) and keep only buckets with `rate > 0`. -/
def periodRates (periods : List PeriodData) (rateType : Metric) : List Bucket :=
  (periods.map fun p =>
    let rate : ℚ :=
      if rateType = .tq ∧ 0 < p.trips then p.quotes / p.trips * 100
      else if rateType = .tp ∧ 0 < p.trips then p.passthroughs / p.trips * 100
      else if rateType = .pq ∧ 0 < p.passthroughs then p.quotes / p.passthroughs * 100
      else 0
    Bucket.mk rate p.periodStart p.periodEnd).filter fun p => 0 < p.value

/-- `calculatePeriodRate` (aggregation followed by the pure rate map/filter). -/
def calculatePeriodRate (dailyMetrics : List DailyAgentMetrics)
    (getPeriodStart getPeriodEnd : Int → Int) (rateType : Metric) :
    Option (List Bucket) :=
  (aggregateByPeriod dailyMetrics getPeriodStart getPeriodEnd).map
    fun ps => periodRates ps rateType

/-- `createEmptyAgentRecords`. -/
def createEmptyAgentRecords (agentName : String) : AgentRecords :=
  ⟨agentName, ⟨none, none, none⟩, ⟨none, none, none⟩, ⟨none, none, none⟩,
    ⟨none, none⟩, ⟨none, none⟩, ⟨none, none⟩⟩

/-- Result triple of the two check functions. -/
structure CheckResult where
  updated : Bool
  previousValue : Option ℚ
  newRecord : Option RecordEntry
deriving DecidableEq

/-- JS `currentRecord?.value || null` (`0` is falsy and becomes `null`). -/
def prevOrNull (currentRecord : Option RecordEntry) : Option ℚ :=
  match currentRecord with
  | none => none
  | some r => if r.value = 0 then none else some r.value

/-- `checkAndUpdateVolumeRecord`. -/
def checkAndUpdateVolumeRecord (currentRecord : Option RecordEntry) (value : ℚ)
    (periodStart periodEnd : String) : CheckResult :=
  if value ≤ 0 then ⟨false, none, currentRecord⟩
  else
    match currentRecord with
    | none => ⟨true, prevOrNull currentRecord, some ⟨value, periodStart, periodEnd⟩⟩
    | some r =>
      if r.value < value then
        ⟨true, prevOrNull currentRecord, some ⟨value, periodStart, periodEnd⟩⟩
      else ⟨false, none, currentRecord⟩

/-- `checkAndUpdateRateRecord` (sanity bound: rate in `(0, 200]`). -/
def checkAndUpdateRateRecord (currentRecord : Option RecordEntry) (rate : ℚ)
    (periodStart periodEnd : String) : CheckResult :=
  if rate ≤ 0 ∨ 200 < rate then ⟨false, none, currentRecord⟩
  else
    match currentRecord with
    | none => ⟨true, prevOrNull currentRecord, some ⟨rate, periodStart, periodEnd⟩⟩
    | some r =>
      if r.value < rate then
        ⟨true, prevOrNull currentRecord, some ⟨rate, periodStart, periodEnd⟩⟩
      else ⟨false, none, currentRecord⟩

/-- One `for (const period of ...Data)` block of `analyzeAndUpdateRecords`:
run the check over each bucket in order, updating the slot in place and
pushing one `RecordUpdate` per successful check. -/
def runPeriods (check : Option RecordEntry → ℚ → String → String → CheckResult)
    (agentName : String) (metric : Metric) (period : TimePeriod)
    (rec : Option RecordEntry) :
    List Bucket → Option RecordEntry × List RecordUpdate
  | [] => (rec, [])
  | b :: rest =>
    let result := check rec b.value b.periodStart b.periodEnd
    if result.updated then
      let tail := runPeriods check agentName metric period result.newRecord rest
      (tail.1,
        ⟨agentName, metric, period, result.previousValue, b.value,
          b.periodStart, b.periodEnd⟩ :: tail.2)
    else
      runPeriods check agentName metric period rec rest

/-- The bucket list a volume metric sees: the aggregated periods with the
metric's counter as the compared value. -/
def volBuckets (periods : List PeriodData) (proj : PeriodData → ℚ) : List Bucket :=
  periods.map fun p => ⟨proj p, p.periodStart, p.periodEnd⟩

/-- Body of `analyzeAndUpdateRecords`'s per-agent loop.  The source iterates
`['trips','quotes','passthroughs'] × [week, month, quarter]` and then
`['tq','tp','pq'] × [month, quarter]`, each iteration touching only the slot
`agentRecords[metric][period]`; the loop is unrolled here in the source's
iteration order.  The source's rate loops recompute
`calculatePeriodRate(dailyMetrics, ...)`, whose aggregation step yields the
same `monthlyData`/`quarterlyData` already computed above it, so the rate
bucket lists are written as `periodRates` of those aggregates.  `none`
propagates the date-formatting exception from aggregation. -/
def processAgent (agentName : String) (dailyMetrics : List DailyAgentMetrics)
    (agentRecords : AgentRecords) : Option (AgentRecords × List RecordUpdate) :=
  match aggregateByPeriod dailyMetrics getWeekStart getWeekEnd,
      aggregateByPeriod dailyMetrics getMonthStart getMonthEnd,
      aggregateByPeriod dailyMetrics getQuarterStart getQuarterEnd with
  | some weeklyData, some monthlyData, some quarterlyData =>
    let r1 := runPeriods checkAndUpdateVolumeRecord agentName .trips .week
      agentRecords.trips.week (volBuckets weeklyData fun p => p.trips)
    let r2 := runPeriods checkAndUpdateVolumeRecord agentName .trips .month
      agentRecords.trips.month (volBuckets monthlyData fun p => p.trips)
    let r3 := runPeriods checkAndUpdateVolumeRecord agentName .trips .quarter
      agentRecords.trips.quarter (volBuckets quarterlyData fun p => p.trips)
    let r4 := runPeriods checkAndUpdateVolumeRecord agentName .quotes .week
      agentRecords.quotes.week (volBuckets weeklyData fun p => p.quotes)
    let r5 := runPeriods checkAndUpdateVolumeRecord agentName .quotes .month
      agentRecords.quotes.month (volBuckets monthlyData fun p => p.quotes)
    let r6 := runPeriods checkAndUpdateVolumeRecord agentName .quotes .quarter
      agentRecords.quotes.quarter (volBuckets quarterlyData fun p => p.quotes)
    let r7 := runPeriods checkAndUpdateVolumeRecord agentName .passthroughs .week
      agentRecords.passthroughs.week (volBuckets weeklyData fun p => p.passthroughs)
    let r8 := runPeriods checkAndUpdateVolumeRecord agentName .passthroughs .month
      agentRecords.passthroughs.month (volBuckets monthlyData fun p => p.passthroughs)
    let r9 := runPeriods checkAndUpdateVolumeRecord agentName .passthroughs .quarter
      agentRecords.passthroughs.quarter (volBuckets quarterlyData fun p => p.passthroughs)
    let r10 := runPeriods checkAndUpdateRateRecord agentName .tq .month
      agentRecords.tq.month (periodRates monthlyData .tq)
    let r11 := runPeriods checkAndUpdateRateRecord agentName .tq .quarter
      agentRecords.tq.quarter (periodRates quarterlyData .tq)
    let r12 := runPeriods checkAndUpdateRateRecord agentName .tp .month
      agentRecords.tp.month (periodRates monthlyData .tp)
    let r13 := runPeriods checkAndUpdateRateRecord agentName .tp .quarter
      agentRecords.tp.quarter (periodRates quarterlyData .tp)
    let r14 := runPeriods checkAndUpdateRateRecord agentName .pq .month
      agentRecords.pq.month (periodRates monthlyData .pq)
    let r15 := runPeriods checkAndUpdateRateRecord agentName .pq .quarter
      agentRecords.pq.quarter (periodRates quarterlyData .pq)
    some ({ agentRecords with
        trips := ⟨r1.1, r2.1, r3.1⟩
        quotes := ⟨r4.1, r5.1, r6.1⟩
        passthroughs := ⟨r7.1, r8.1, r9.1⟩
        tq := ⟨r10.1, r11.1⟩
        tp := ⟨r12.1, r13.1⟩
        pq := ⟨r14.1, r15.1⟩ },
      r1.2 ++ r2.2 ++ r3.2 ++ r4.2 ++ r5.2 ++ r6.2 ++ r7.2 ++ r8.2 ++ r9.2 ++
        r10.2 ++ r11.2 ++ r12.2 ++ r13.2 ++ r14.2 ++ r15.2)
  | _, _, _ => none

/-- Loop of `analyzeAndUpdateRecords` over the agents, threading the ledger
map and the accumulated update list. -/
def analyzeGo (agents : List AgentTimeSeries) (recs : String → Option AgentRecords)
    (updates : List RecordUpdate) :
    Option ((String → Option AgentRecords) × List RecordUpdate) :=
  match agents with
  | [] => some (recs, updates)
  | a :: rest =>
    let agentRecords :=
      match recs a.agentName with
      | some r => r
      | none => createEmptyAgentRecords a.agentName
    match processAgent a.agentName a.dailyMetrics agentRecords with
    | none => none
    | some (ar, us) =>
      analyzeGo rest (fun n => if n = a.agentName then some ar else recs n)
        (updates ++ us)

/-- `analyzeAndUpdateRecords`: the main analysis pass.  Returns the updated
ledger and the ordered `RecordUpdate` list, or `none` if a non-`"unknown"`
date string in the input fails to parse (the source would throw). -/
def analyzeAndUpdateRecords (timeSeriesData : TimeSeriesData)
    (existingRecords : AllRecords) : Option (AllRecords × List RecordUpdate) :=
  match analyzeGo timeSeriesData.agents existingRecords.agents [] with
  | none => none
  | some (m, us) => some (⟨m⟩, us)

end RecordsTracker

namespace TimeSeriesUtils

/-! ## `src/utils/timeSeriesUtils.ts` -/

/-- `calculateDailyRatios`: map each day to its six derived ratios, each `0`
when its denominator is not positive. -/
def calculateDailyRatios (dailyMetrics : List DailyAgentMetrics) : List DailyRatioPoint :=
  dailyMetrics.map fun m =>
    ⟨m.date,
      if 0 < m.trips then m.quotes / m.trips * 100 else 0,
      if 0 < m.trips then m.passthroughs / m.trips * 100 else 0,
      if 0 < m.passthroughs then m.quotes / m.passthroughs * 100 else 0,
      if 0 < m.passthroughs then m.hotPasses / m.passthroughs * 100 else 0,
      if 0 < m.trips then m.bookings / m.trips * 100 else 0,
      if 0 < m.trips then m.nonConverted / m.trips * 100 else 0⟩

/-- The six running totals accumulated by `calculateGroupDailyRatios`' inner
loop. -/
structure GroupTotals where
  trips : ℚ
  quotes : ℚ
  passthroughs : ℚ
  hotPasses : ℚ
  bookings : ℚ
  nonConverted : ℚ
deriving DecidableEq

/-- Inner loop of `calculateGroupDailyRatios`: add each agent's metrics for
the date (`dailyMetrics.find`), absent agents contributing nothing. -/
def sumForDate (agents : List AgentTimeSeries) (date : String) : GroupTotals :=
  agents.foldl
    (fun acc agent =>
      match agent.dailyMetrics.find? fun m => m.date = date with
      | some d =>
        ⟨acc.trips + d.trips, acc.quotes + d.quotes,
          acc.passthroughs + d.passthroughs, acc.hotPasses + d.hotPasses,
          acc.bookings + d.bookings, acc.nonConverted + d.nonConverted⟩
      | none => acc)
    ⟨0, 0, 0, 0, 0, 0⟩

/-- `calculateGroupDailyRatios`: ratios of summed counters per date; one
all-zero point per date when `agents` is empty. -/
def calculateGroupDailyRatios (agents : List AgentTimeSeries) (dates : List String) :
    List DailyRatioPoint :=
  if agents.isEmpty then
    dates.map fun date => ⟨date, 0, 0, 0, 0, 0, 0⟩
  else
    dates.map fun date =>
      let t := sumForDate agents date
      ⟨date,
        if 0 < t.trips then t.quotes / t.trips * 100 else 0,
        if 0 < t.trips then t.passthroughs / t.trips * 100 else 0,
        if 0 < t.passthroughs then t.quotes / t.passthroughs * 100 else 0,
        if 0 < t.passthroughs then t.hotPasses / t.passthroughs * 100 else 0,
        if 0 < t.trips then t.bookings / t.trips * 100 else 0,
        if 0 < t.trips then t.nonConverted / t.trips * 100 else 0⟩

/-- Insert a date into the deduplicating accumulator (JS `Set.add`:
first-insertion order, duplicates ignored). -/
def insertDate (acc : List String) (d : String) : List String :=
  if d ∈ acc then acc else acc ++ [d]

/-- The union of all agents' non-`"unknown"` dates in first-occurrence
order (the JS `Set` iteration order before sorting). -/
def collectDates (agents : List AgentTimeSeries) : List String :=
  agents.foldl
    (fun acc agent =>
      agent.dailyMetrics.foldl
        (fun acc m => if m.date = "unknown" then acc else insertDate acc m.date) acc)
    []

/-- `getAllDates` / the `sortedDates` computation shared by
`mergeSeriesForChart`: all distinct non-`"unknown"` dates, sorted (JS default
sort = lexicographic by code units, which `String` order matches here). -/
def getAllDates (timeSeriesData : TimeSeriesData) : List String :=
  List.insertionSort (fun a b => a ≤ b) (collectDates timeSeriesData.agents)

/-- Key string of a metric (its property name in a `DailyRatioPoint`). -/
def metricKeyStr : MetricKey → String
  | .tq => "tq" | .tp => "tp" | .pq => "pq"
  | .hp => "hp" | .bk => "bk" | .nc => "nc"

/-- Project a `DailyRatioPoint` at a metric key (`dayPoint[metric]`). -/
def ratioAt (p : DailyRatioPoint) : MetricKey → ℚ
  | .tq => p.tq | .tp => p.tp | .pq => p.pq
  | .hp => p.hp | .bk => p.bk | .nc => p.nc

/-- The inline per-day ratio computation of `mergeSeriesForChart` for a found
agent: the six ratios of the found `dayMetrics`, or all zeroes when the agent
has no entry for the date. -/
def agentRatios (dayMetrics : Option DailyAgentMetrics) : MetricKey → ℚ :=
  match dayMetrics with
  | some d =>
    fun k =>
      match k with
      | .tq => if 0 < d.trips then d.quotes / d.trips * 100 else 0
      | .tp => if 0 < d.trips then d.passthroughs / d.trips * 100 else 0
      | .pq => if 0 < d.passthroughs then d.quotes / d.passthroughs * 100 else 0
      | .hp => if 0 < d.passthroughs then d.hotPasses / d.passthroughs * 100 else 0
      | .bk => if 0 < d.trips then d.bookings / d.trips * 100 else 0
      | .nc => if 0 < d.trips then d.nonConverted / d.trips * 100 else 0
  | none => fun _ => 0

/-- One merged chart record: the `date` property plus the dynamically keyed
numeric properties, in insertion order. -/
structure ChartPoint where
  date : String
  fields : List (String × ℚ)
deriving DecidableEq

/-- `mergeSeriesForChart`.  Selected agents not present in the data add no
keys (`continue`); a present agent always adds one key per selected metric
(zero-valued if it has no entry for the date); each group-average key is
added only when its flag is set and its series has a point for the date. -/
def mergeSeriesForChart (timeSeriesData : TimeSeriesData)
    (selectedAgents : List String) (selectedMetrics : List MetricKey)
    (showDeptAvg showSeniorAvg showNonSeniorAvg : Bool)
    (dateStartIdx dateEndIdx : Nat) : List ChartPoint :=
  let sortedDates := getAllDates timeSeriesData
  let filteredDates := (sortedDates.drop dateStartIdx).take (dateEndIdx + 1 - dateStartIdx)
  filteredDates.map fun date =>
    let agentFields :=
      selectedAgents.flatMap fun agentName =>
        match timeSeriesData.agents.find? fun a => a.agentName = agentName with
        | none => []
        | some agent =>
          let ratios := agentRatios (agent.dailyMetrics.find? fun m => m.date = date)
          selectedMetrics.map fun metric =>
            (agentName ++ "_" ++ metricKeyStr metric, ratios metric)
    let deptDay := timeSeriesData.departmentDaily.find? fun d => d.date = date
    let seniorDay := timeSeriesData.seniorDaily.find? fun d => d.date = date
    let nonSeniorDay := timeSeriesData.nonSeniorDaily.find? fun d => d.date = date
    let avgFields :=
      selectedMetrics.flatMap fun metric =>
        (match showDeptAvg, deptDay with
          | true, some d => [("dept_" ++ metricKeyStr metric, ratioAt d metric)]
          | _, _ => []) ++
        (match showSeniorAvg, seniorDay with
          | true, some d => [("senior_" ++ metricKeyStr metric, ratioAt d metric)]
          | _, _ => []) ++
        (match showNonSeniorAvg, nonSeniorDay with
          | true, some d => [("nonsenior_" ++ metricKeyStr metric, ratioAt d metric)]
          | _, _ => [])
    ⟨date, agentFields ++ avgFields⟩

end TimeSeriesUtils

namespace Regression

/-! ## `src/utils/regression.ts`

The y-series entries are modelled as `Option ℚ`: `some y` is a finite JS
number, `none` models `NaN`, `null`, `undefined` or a non-number — exactly
the entries rejected by the source's
`typeof yValues[i] === 'number' && !isNaN(yValues[i]) && yValues[i] !== null`
filter (the rational embedding has no infinities). -/

/-- `RegressionResult.type`. -/
inductive RegressionType | linear | logLinear
deriving DecidableEq

/-- `RegressionResult`. -/
structure RegressionResult where
  slope : ℚ
  intercept : ℚ
  rSquared : ℚ
  predictedValues : List ℚ
  type : RegressionType
deriving DecidableEq

/-- The `validPairs` filter of `linearRegression`: for each index of the x
array, keep the pair when the y entry at that index exists and is a valid
number. -/
def validPairs (xValues : List ℚ) (yValues : List (Option ℚ)) : List (ℚ × ℚ) :=
  (List.range xValues.length).filterMap fun i =>
    match xValues.get? i, (yValues.get? i).bind id with
    | some x, some y => some (x, y)
    | _, _ => none

/-- `sumX` over the valid pairs. -/
def sumX (vp : List (ℚ × ℚ)) : ℚ := (vp.map fun p => p.1).sum

/-- `sumY` over the valid pairs. -/
def sumY (vp : List (ℚ × ℚ)) : ℚ := (vp.map fun p => p.2).sum

/-- `sumXY` over the valid pairs. -/
def sumXY (vp : List (ℚ × ℚ)) : ℚ := (vp.map fun p => p.1 * p.2).sum

/-- `sumX2` over the valid pairs. -/
def sumX2 (vp : List (ℚ × ℚ)) : ℚ := (vp.map fun p => p.1 * p.1).sum

/-- The x-variance denominator `sumX2 - sumX²/n` of the fit over `vp`. -/
def lrDenominator (vp : List (ℚ × ℚ)) : ℚ :=
  sumX2 vp - sumX vp * sumX vp / vp.length

/-- `linearRegression`. -/
def linearRegression (xValues : List ℚ) (yValues : List (Option ℚ)) :
    Option RegressionResult :=
  if xValues.length < 2 then none
  else
    let vp := validPairs xValues yValues
    if vp.length < 2 then none
    else
      let validN : ℚ := vp.length
      let meanX := sumX vp / validN
      let meanY := sumY vp / validN
      let denominator := lrDenominator vp
      if |denominator| < 1 / 10000000000 then none
      else
        let slope := (sumXY vp - sumX vp * sumY vp / validN) / denominator
        let intercept := meanY - slope * meanX
        let ssTot : ℚ := (vp.map fun p => (p.2 - meanY) ^ 2).sum
        let ssRes := (vp.map fun p => (p.2 - (intercept + slope * p.1)) ^ 2).sum
        let rSquared := if 0 < ssTot then 1 - ssRes / ssTot else 0
        some ⟨slope, intercept, rSquared,
          xValues.map fun x => intercept + slope * x, .linear⟩

/-- `meetsThreshold` of `getBestRegression` (JS truthiness of
`r && r.rSquared >= rSquaredThreshold`). -/
def meetsThreshold (r : Option RegressionResult) (rSquaredThreshold : ℚ) : Bool :=
  match r with
  | none => false
  | some x => rSquaredThreshold ≤ x.rSquared

/-- `getBestRegression`.  `logLinearRegression` fits `y = a·e^(bx)` with the
transcendental `Math.log`/`Math.exp`, which has no computable rational
embedding; the selection logic under verification is independent of the fit
itself, so the log-linear fitter is a parameter here. -/
def getBestRegression
    (logLinearRegression : List ℚ → List (Option ℚ) → Option RegressionResult)
    (xValues : List ℚ) (yValues : List (Option ℚ)) (rSquaredThreshold : ℚ) :
    Option RegressionResult :=
  let linear := linearRegression xValues yValues
  let logLinear := logLinearRegression xValues yValues
  if meetsThreshold logLinear rSquaredThreshold ∧ meetsThreshold linear rSquaredThreshold then
    match logLinear, linear with
    | some lg, some ln => if ln.rSquared ≤ lg.rSquared then some lg else some ln
    | _, _ => none
  else if meetsThreshold logLinear rSquaredThreshold then logLinear
  else if meetsThreshold linear rSquaredThreshold then linear
  else none

end Regression

namespace Storage

/-! ## `parseDate` of `src/utils/storage.ts` -/

/-- The `string | number | null | undefined` input union of `parseDate`
(numbers restricted to the integers, the only numeric inputs the claims
involve). -/
inductive StorageValue
  | str (s : String)
  | num (n : Int)
  | null
  | undefined

/-- JS `String(value)` on the union. -/
def jsStringOf : StorageValue → String
  | .str s => s
  | .num n => toString n
  | .null => "null"
  | .undefined => "undefined"

/-- Maximal leading run of decimal digits, as value and count. -/
def takeDigits : List Char → Nat × Nat × List Char
  | [] => (0, 0, [])
  | c :: cs =>
    match digitVal c with
    | none => (0, 0, c :: cs)
    | some d =>
      let r := takeDigits cs
      (d * 10 ^ r.2.1 + r.1, r.2.1 + 1, r.2.2)

/-- JS `parseFloat` on an already trimmed string (exponent-free form, which
covers every numeric literal the code can meet here): optional sign, then a
maximal prefix `digits[.digits]`; `NaN` (`none`) when no digit is found.
Trailing non-numeric characters are ignored, as in JS. -/
def parseFloat (s : String) : Option ℚ :=
  let cs := s.toList
  let signAndRest : ℚ × List Char :=
    match cs with
    | '-' :: rest => (-1, rest)
    | '+' :: rest => (1, rest)
    | _ => (1, cs)
  let ip := takeDigits signAndRest.2
  let fp :=
    match ip.2.2 with
    | '.' :: rest => takeDigits rest
    | _ => (0, 0, [])
  if ip.2.1 = 0 ∧ fp.2.1 = 0 then none
  else some (signAndRest.1 * ((ip.1 : ℚ) + (fp.1 : ℚ) / 10 ^ fp.2.1))

/-- `EXCEL_EPOCH = new Date(1899, 11, 30)`, in milliseconds since the JS
epoch. -/
def EXCEL_EPOCH : ℚ := (mkDate 1899 11 30 : Int) * 86400000

/-- `parseExcelSerial`: a day-count offset from the 1899-12-30 epoch,
accepted only strictly between 1000 and 100000; result in epoch
milliseconds. -/
def parseExcelSerial (value : ℚ) : Option ℚ :=
  if value ≤ 1000 ∨ 100000 ≤ value then none
  else some (EXCEL_EPOCH + value * 86400000)

/-- Modelled from the spec: the generic calendar-date-string parsing that
`new Date(string)` performs as the fallback (§4.1 "attempts generic
calendar-date-string parsing; returns `null` if that also fails"); the host
engine's parser itself is not part of the repository.  Modelled as the
date-only ISO format `YYYY-MM-DD` (4-digit year, 2-digit month 01–12,
2-digit day 01–31), the one calendar form this repository's data can carry;
anything else — in particular a bare number such as `"500"` — fails. -/
def genericDateParse (s : String) : Option ℚ :=
  match s.toList with
  | [y1, y2, y3, y4, '-', m1, m2, '-', d1, d2] =>
    match digitVal y1, digitVal y2, digitVal y3, digitVal y4,
        digitVal m1, digitVal m2, digitVal d1, digitVal d2 with
    | some a, some b, some c, some d, some e, some f, some g, some h =>
      let y : Int := a * 1000 + b * 100 + c * 10 + d
      let m : Int := e * 10 + f
      let dd : Int := g * 10 + h
      if 1 ≤ m ∧ m ≤ 12 ∧ 1 ≤ dd ∧ dd ≤ 31 then
        some ((daysFromCivil y m dd : Int) * 86400000)
      else none
    | _, _, _, _, _, _, _, _ => none
  | _ => none

/-- `parseDate` (storage): `null` for `null`/`undefined`/empty-after-trim;
then the Excel-serial path when the trimmed string parses as a number in
(1000, 100000); otherwise the generic date-string fallback.  The result is a
date in epoch milliseconds; `none` is JS `null`.  Total — never throws. -/
def parseDate (value : StorageValue) : Option ℚ :=
  match value with
  | .null => none
  | .undefined => none
  | v =>
    let strValue := jsTrim (jsStringOf v)
    if strValue = "" then none
    else
      match parseFloat strValue with
      | some numValue =>
        match parseExcelSerial numValue with
        | some excelDate => some excelDate
        | none => genericDateParse strValue
      | none => genericDateParse strValue

end Storage

namespace RecordsTracker

/-! ## Verification definitions (records tracker) -/

/-- A record slot is at most another: whenever the first holds a record, so
does the second, with a value at least as large. -/
def RecLE (a b : Option RecordEntry) : Prop :=
  ∀ r, a = some r → ∃ r', b = some r' ∧ r.value ≤ r'.value

/-- A slot dominates a bucket list (under guard `g`): every bucket whose
value passes the guard is at most the stored record. -/
def Dominates (g : ℚ → Prop) (rec : Option RecordEntry) (bs : List Bucket) : Prop :=
  ∀ b ∈ bs, g b.value → ∃ r, rec = some r ∧ b.value ≤ r.value

/-- The guard a volume value must pass to be record-worthy. -/
def volOK (v : ℚ) : Prop := 0 < v

/-- The guard a rate value must pass to be record-worthy. -/
def rateOK (v : ℚ) : Prop := 0 < v ∧ v ≤ 200

/-- The behaviour shared by the two check functions (with guard `g`): either
nothing qualifies and the slot and event stream are untouched, or the guard
holds, the incoming value strictly beats the stored record, and the slot is
replaced. -/
def CheckOK (check : Option RecordEntry → ℚ → String → String → CheckResult)
    (g : ℚ → Prop) : Prop :=
  ∀ rec v ps pe,
    (check rec v ps pe = ⟨false, none, rec⟩ ∧
      (¬ g v ∨ ∃ r, rec = some r ∧ v ≤ r.value)) ∨
    (check rec v ps pe = ⟨true, prevOrNull rec, some ⟨v, ps, pe⟩⟩ ∧
      g v ∧ ∀ r, rec = some r → r.value < v)

/-- Number of times a slot's stored record actually changes while a bucket
list is processed by `check` (the reference count for "one event per actual
update"). -/
def slotChanges (check : Option RecordEntry → ℚ → String → String → CheckResult)
    (rec : Option RecordEntry) : List Bucket → Nat
  | [] => 0
  | b :: rest =>
    let c := check rec b.value b.periodStart b.periodEnd
    (if c.newRecord = rec then 0 else 1) + slotChanges check c.newRecord rest

/-- The record slot of a metric at a granularity (`agentRecords[metric][period]`);
the rate metrics have no weekly slot, read as empty. -/
def slot (ar : AgentRecords) : Metric → TimePeriod → Option RecordEntry
  | .trips, .week => ar.trips.week
  | .trips, .month => ar.trips.month
  | .trips, .quarter => ar.trips.quarter
  | .quotes, .week => ar.quotes.week
  | .quotes, .month => ar.quotes.month
  | .quotes, .quarter => ar.quotes.quarter
  | .passthroughs, .week => ar.passthroughs.week
  | .passthroughs, .month => ar.passthroughs.month
  | .passthroughs, .quarter => ar.passthroughs.quarter
  | .tq, .week => none
  | .tq, .month => ar.tq.month
  | .tq, .quarter => ar.tq.quarter
  | .tp, .week => none
  | .tp, .month => ar.tp.month
  | .tp, .quarter => ar.tp.quarter
  | .pq, .week => none
  | .pq, .month => ar.pq.month
  | .pq, .quarter => ar.pq.quarter

/-- The guard governing a metric's record checks. -/
def guardOf : Metric → ℚ → Prop
  | .trips | .quotes | .passthroughs => volOK
  | .tq | .tp | .pq => rateOK

/-- The check function a metric's record checks use. -/
def checkFor : Metric → Option RecordEntry → ℚ → String → String → CheckResult
  | .trips | .quotes | .passthroughs => checkAndUpdateVolumeRecord
  | .tq | .tp | .pq => checkAndUpdateRateRecord

/-- The bucket list `analyzeAndUpdateRecords` feeds to the slot of metric `m`
at granularity `p` for an agent with the given daily metrics (empty for the
untracked weekly rate slots). -/
def bucketsForAgent (dm : List DailyAgentMetrics) : Metric → TimePeriod → Option (List Bucket)
  | .trips, .week =>
    (aggregateByPeriod dm getWeekStart getWeekEnd).map (volBuckets · fun p => p.trips)
  | .trips, .month =>
    (aggregateByPeriod dm getMonthStart getMonthEnd).map (volBuckets · fun p => p.trips)
  | .trips, .quarter =>
    (aggregateByPeriod dm getQuarterStart getQuarterEnd).map (volBuckets · fun p => p.trips)
  | .quotes, .week =>
    (aggregateByPeriod dm getWeekStart getWeekEnd).map (volBuckets · fun p => p.quotes)
  | .quotes, .month =>
    (aggregateByPeriod dm getMonthStart getMonthEnd).map (volBuckets · fun p => p.quotes)
  | .quotes, .quarter =>
    (aggregateByPeriod dm getQuarterStart getQuarterEnd).map (volBuckets · fun p => p.quotes)
  | .passthroughs, .week =>
    (aggregateByPeriod dm getWeekStart getWeekEnd).map (volBuckets · fun p => p.passthroughs)
  | .passthroughs, .month =>
    (aggregateByPeriod dm getMonthStart getMonthEnd).map (volBuckets · fun p => p.passthroughs)
  | .passthroughs, .quarter =>
    (aggregateByPeriod dm getQuarterStart getQuarterEnd).map (volBuckets · fun p => p.passthroughs)
  | .tq, .week => some []
  | .tq, .month => (aggregateByPeriod dm getMonthStart getMonthEnd).map (periodRates · .tq)
  | .tq, .quarter => (aggregateByPeriod dm getQuarterStart getQuarterEnd).map (periodRates · .tq)
  | .tp, .week => some []
  | .tp, .month => (aggregateByPeriod dm getMonthStart getMonthEnd).map (periodRates · .tp)
  | .tp, .quarter => (aggregateByPeriod dm getQuarterStart getQuarterEnd).map (periodRates · .tp)
  | .pq, .week => some []
  | .pq, .month => (aggregateByPeriod dm getMonthStart getMonthEnd).map (periodRates · .pq)
  | .pq, .quarter => (aggregateByPeriod dm getQuarterStart getQuarterEnd).map (periodRates · .pq)

/-- Slot-wise `RecLE` between two optional agent ledgers: records are never
dropped and never decrease. -/
def ARLE (a b : Option AgentRecords) : Prop :=
  ∀ ar, a = some ar → ∃ ar', b = some ar' ∧ ∀ m p, RecLE (slot ar m p) (slot ar' m p)

/-- An agent entry is settled in ledger map `M`: its analysis cannot fail,
`M` stores records for it, and every one of its buckets is dominated. -/
def AgentSettled (M : String → Option AgentRecords) (a : AgentTimeSeries) : Prop :=
  (∃ ar₀ o, processAgent a.agentName a.dailyMetrics ar₀ = some o) ∧
  ∃ ar, M a.agentName = some ar ∧
    ∀ m p bs, bucketsForAgent a.dailyMetrics m p = some bs →
      Dominates (guardOf m) (slot ar m p) bs

/-- Drop every `"unknown"`-dated entry from each agent's daily metrics. -/
def stripUnknown (timeSeriesData : TimeSeriesData) : TimeSeriesData :=
  { timeSeriesData with
    agents := timeSeriesData.agents.map fun a =>
      { a with dailyMetrics := a.dailyMetrics.filter fun d => decide (d.date ≠ "unknown") } }

/-- Concrete analysis input: one agent, two January days. -/
def T0 : TimeSeriesData :=
  ⟨"2024-01-15", "2024-01-16",
    [⟨"A", [⟨"2024-01-15", 1, 1, 0, 0, 0, 0⟩, ⟨"2024-01-16", 2, 1, 0, 0, 0, 0⟩]⟩],
    [], [], []⟩

/-- The empty ledger. -/
def L0 : AllRecords := ⟨fun _ => none⟩

/-- Concrete analysis input: agent A with a 500% trip→quote day (rejected as
implausible), agent B with a 50% one. -/
def T3 : TimeSeriesData :=
  ⟨"2024-01-15", "2024-01-15",
    [⟨"A", [⟨"2024-01-15", 1, 5, 0, 0, 0, 0⟩]⟩,
      ⟨"B", [⟨"2024-01-15", 2, 1, 0, 0, 0, 0⟩]⟩],
    [], [], []⟩

/-- The records the pass over `T0` stores for agent A. -/
def AR0 : AgentRecords :=
  ⟨"A",
    ⟨some ⟨3, "2024-01-15", "2024-01-21"⟩, some ⟨3, "2024-01-01", "2024-01-31"⟩,
      some ⟨3, "2024-01-01", "2024-03-31"⟩⟩,
    ⟨some ⟨2, "2024-01-15", "2024-01-21"⟩, some ⟨2, "2024-01-01", "2024-01-31"⟩,
      some ⟨2, "2024-01-01", "2024-03-31"⟩⟩,
    ⟨none, none, none⟩,
    ⟨some ⟨200 / 3, "2024-01-01", "2024-01-31"⟩, some ⟨200 / 3, "2024-01-01", "2024-03-31"⟩⟩,
    ⟨none, none⟩, ⟨none, none⟩⟩

/-- The records the pass over `T3` stores for agent B. -/
def AR3B : AgentRecords :=
  ⟨"B",
    ⟨some ⟨2, "2024-01-15", "2024-01-21"⟩, some ⟨2, "2024-01-01", "2024-01-31"⟩,
      some ⟨2, "2024-01-01", "2024-03-31"⟩⟩,
    ⟨some ⟨1, "2024-01-15", "2024-01-21"⟩, some ⟨1, "2024-01-01", "2024-01-31"⟩,
      some ⟨1, "2024-01-01", "2024-03-31"⟩⟩,
    ⟨none, none, none⟩,
    ⟨some ⟨50, "2024-01-01", "2024-01-31"⟩, some ⟨50, "2024-01-01", "2024-03-31"⟩⟩,
    ⟨none, none⟩, ⟨none, none⟩⟩

end RecordsTracker

namespace TimeSeriesUtils

/-! ## Verification definitions (time series) -/

/-- An agent's counter for a date, zero when the agent has no entry for it. -/
def pickOr0 (f : DailyAgentMetrics → ℚ) (date : String) (a : AgentTimeSeries) : ℚ :=
  match a.dailyMetrics.find? fun m => m.date = date with
  | some m => f m
  | none => 0

/-- Modelled from the spec: the group ratio point the spec describes —
"sums each of the six counters across all supplied agents for that date
(agents missing that date contribute zero), then applies the same ratio
formulas to the sums". -/
def groupRatioPointSpec (agents : List AgentTimeSeries) (date : String) : DailyRatioPoint :=
  let t := (agents.map (pickOr0 (fun m => m.trips) date)).sum
  let q := (agents.map (pickOr0 (fun m => m.quotes) date)).sum
  let pa := (agents.map (pickOr0 (fun m => m.passthroughs) date)).sum
  let hp := (agents.map (pickOr0 (fun m => m.hotPasses) date)).sum
  let bk := (agents.map (pickOr0 (fun m => m.bookings) date)).sum
  let nc := (agents.map (pickOr0 (fun m => m.nonConverted) date)).sum
  ⟨date,
    if 0 < t then q / t * 100 else 0,
    if 0 < t then pa / t * 100 else 0,
    if 0 < pa then q / pa * 100 else 0,
    if 0 < pa then hp / pa * 100 else 0,
    if 0 < t then bk / t * 100 else 0,
    if 0 < t then nc / t * 100 else 0⟩

/-- Concrete chart input: agent A has data on both days, agent B only on the
first. -/
def tsd9 : TimeSeriesData :=
  ⟨"", "",
    [⟨"A", [⟨"2024-01-01", 2, 1, 0, 0, 0, 0⟩, ⟨"2024-01-02", 4, 1, 0, 0, 0, 0⟩]⟩,
      ⟨"B", [⟨"2024-01-01", 4, 2, 0, 0, 0, 0⟩]⟩],
    [], [], []⟩

end TimeSeriesUtils

namespace RecordsTracker

/-! ## Lemmas: the check functions -/

theorem RecLE_refl (a : Option RecordEntry) : RecLE a a :=
  fun r h => ⟨r, h, le_rfl⟩

theorem RecLE_trans {a b c : Option RecordEntry} (h1 : RecLE a b) (h2 : RecLE b c) :
    RecLE a c := by
  intro r hr
  obtain ⟨r', hb, hle⟩ := h1 r hr
  obtain ⟨r'', hc, hle'⟩ := h2 r' hb
  exact ⟨r'', hc, hle.trans hle'⟩

theorem Dominates_mono {g : ℚ → Prop} {rec rec' : Option RecordEntry}
    {bs : List Bucket} (hle : RecLE rec rec') (h : Dominates g rec bs) :
    Dominates g rec' bs := by
  intro b hb hg
  obtain ⟨r, hr, hvr⟩ := h b hb hg
  obtain ⟨r', hr', hrr⟩ := hle r hr
  exact ⟨r', hr', hvr.trans hrr⟩

/-- The two possible outcomes of `checkAndUpdateVolumeRecord`. -/
theorem checkVol_cases (rec : Option RecordEntry) (v : ℚ) (ps pe : String) :
    (checkAndUpdateVolumeRecord rec v ps pe = ⟨false, none, rec⟩ ∧
      (v ≤ 0 ∨ ∃ r, rec = some r ∧ v ≤ r.value)) ∨
    (checkAndUpdateVolumeRecord rec v ps pe = ⟨true, prevOrNull rec, some ⟨v, ps, pe⟩⟩ ∧
      0 < v ∧ ∀ r, rec = some r → r.value < v) := by
  unfold checkAndUpdateVolumeRecord
  split
  · rename_i h
    exact Or.inl ⟨rfl, Or.inl h⟩
  · rename_i h
    match rec with
    | none => exact Or.inr ⟨rfl, lt_of_not_le h, nofun⟩
    | some r =>
      dsimp only
      split
      · rename_i hlt
        exact Or.inr ⟨rfl, lt_of_not_le h, fun x hx => by cases hx; exact hlt⟩
      · rename_i hlt
        exact Or.inl ⟨rfl, Or.inr ⟨r, rfl, not_lt.mp hlt⟩⟩

/-- The two possible outcomes of `checkAndUpdateRateRecord`. -/
theorem checkRate_cases (rec : Option RecordEntry) (v : ℚ) (ps pe : String) :
    (checkAndUpdateRateRecord rec v ps pe = ⟨false, none, rec⟩ ∧
      ((v ≤ 0 ∨ 200 < v) ∨ ∃ r, rec = some r ∧ v ≤ r.value)) ∨
    (checkAndUpdateRateRecord rec v ps pe = ⟨true, prevOrNull rec, some ⟨v, ps, pe⟩⟩ ∧
      (0 < v ∧ v ≤ 200) ∧ ∀ r, rec = some r → r.value < v) := by
  unfold checkAndUpdateRateRecord
  split
  · rename_i h
    exact Or.inl ⟨rfl, Or.inl h⟩
  · rename_i h
    push_neg at h
    match rec with
    | none => exact Or.inr ⟨rfl, ⟨h.1, h.2⟩, nofun⟩
    | some r =>
      dsimp only
      split
      · rename_i hlt
        exact Or.inr ⟨rfl, ⟨h.1, h.2⟩, fun x hx => by cases hx; exact hlt⟩
      · rename_i hlt
        exact Or.inl ⟨rfl, Or.inr ⟨r, rfl, not_lt.mp hlt⟩⟩

/-- `checkAndUpdateVolumeRecord` satisfies the shared check behaviour with
the volume guard. -/
theorem checkVol_ok : CheckOK checkAndUpdateVolumeRecord volOK := by
  intro rec v ps pe
  rcases checkVol_cases rec v ps pe with ⟨heq, h⟩ | ⟨heq, hv, hall⟩
  · refine Or.inl ⟨heq, ?_⟩
    rcases h with h | h
    · exact Or.inl (not_lt.mpr h)
    · exact Or.inr h
  · exact Or.inr ⟨heq, hv, hall⟩

/-- `checkAndUpdateRateRecord` satisfies the shared check behaviour with the
rate guard. -/
theorem checkRate_ok : CheckOK checkAndUpdateRateRecord rateOK := by
  intro rec v ps pe
  rcases checkRate_cases rec v ps pe with ⟨heq, h⟩ | ⟨heq, hv, hall⟩
  · refine Or.inl ⟨heq, ?_⟩
    rcases h with h | h
    · refine Or.inl fun hg => ?_
      rcases h with h | h
      · exact absurd hg.1 (not_lt.mpr h)
      · exact absurd hg.2 (not_le.mpr h)
    · exact Or.inr h
  · exact Or.inr ⟨heq, hv, hall⟩

/-- `checkFor m` satisfies the shared check behaviour with `guardOf m`. -/
theorem checkFor_ok (m : Metric) : CheckOK (checkFor m) (guardOf m) := by
  cases m
  all_goals first
    | exact checkVol_ok
    | exact checkRate_ok

/-! ## Lemmas: bucket folds (`runPeriods`) -/

theorem runPeriods_recLE {check : Option RecordEntry → ℚ → String → String → CheckResult}
    {g : ℚ → Prop} (hc : CheckOK check g) (n : String) (m : Metric) (p : TimePeriod) :
    ∀ (bs : List Bucket) (rec : Option RecordEntry),
      RecLE rec (runPeriods check n m p rec bs).1 := by
  intro bs
  induction bs with
  | nil => intro rec; exact RecLE_refl rec
  | cons b rest ih =>
    intro rec
    rcases hc rec b.value b.periodStart b.periodEnd with ⟨heq, _⟩ | ⟨heq, hg, hall⟩
    · rw [runPeriods, heq]
      exact ih rec
    · rw [runPeriods, heq]
      dsimp only
      refine RecLE_trans ?_ (ih (some ⟨b.value, b.periodStart, b.periodEnd⟩))
      intro r hr
      exact ⟨⟨b.value, b.periodStart, b.periodEnd⟩, rfl, le_of_lt (hall r hr)⟩

theorem runPeriods_dominates {check : Option RecordEntry → ℚ → String → String → CheckResult}
    {g : ℚ → Prop} (hc : CheckOK check g) (n : String) (m : Metric) (p : TimePeriod) :
    ∀ (bs : List Bucket) (rec : Option RecordEntry),
      Dominates g (runPeriods check n m p rec bs).1 bs := by
  intro bs
  induction bs with
  | nil => intro rec b hb; cases hb
  | cons b rest ih =>
    intro rec b' hb' hg'
    rcases hc rec b.value b.periodStart b.periodEnd with ⟨heq, hcase⟩ | ⟨heq, hg, hall⟩
    · rw [runPeriods, heq]
      dsimp only
      rcases List.mem_cons.mp hb' with hb' | hb'
      · subst hb'
        rcases hcase with hng | ⟨r, hr, hle⟩
        · exact absurd hg' hng
        · obtain ⟨r', hr', hrr⟩ := runPeriods_recLE hc n m p rest rec r hr
          exact ⟨r', hr', hle.trans hrr⟩
      · exact ih rec b' hb' hg'
    · rw [runPeriods, heq]
      dsimp only
      rcases List.mem_cons.mp hb' with hb' | hb'
      · subst hb'
        obtain ⟨r', hr', hrr⟩ :=
          runPeriods_recLE hc n m p rest (some ⟨b'.value, b'.periodStart, b'.periodEnd⟩)
            ⟨b'.value, b'.periodStart, b'.periodEnd⟩ rfl
        exact ⟨r', hr', hrr⟩
      · exact ih (some ⟨b.value, b.periodStart, b.periodEnd⟩) b' hb' hg'

theorem runPeriods_noop {check : Option RecordEntry → ℚ → String → String → CheckResult}
    {g : ℚ → Prop} (hc : CheckOK check g) (n : String) (m : Metric) (p : TimePeriod) :
    ∀ (bs : List Bucket) (rec : Option RecordEntry),
      Dominates g rec bs → runPeriods check n m p rec bs = (rec, []) := by
  intro bs
  induction bs with
  | nil => intro rec _; rfl
  | cons b rest ih =>
    intro rec hdom
    have hnoop : check rec b.value b.periodStart b.periodEnd = ⟨false, none, rec⟩ := by
      rcases hc rec b.value b.periodStart b.periodEnd with ⟨heq, _⟩ | ⟨heq, hg, hall⟩
      · exact heq
      · obtain ⟨r, hr, hle⟩ := hdom b (List.mem_cons_self b rest) hg
        exact absurd (hall r hr) (not_lt.mpr hle)
    rw [runPeriods, hnoop]
    exact ih rec fun b' hb' => hdom b' (List.mem_cons_of_mem b hb')

theorem runPeriods_inv {check : Option RecordEntry → ℚ → String → String → CheckResult}
    {g : ℚ → Prop} (hc : CheckOK check g) {Q : ℚ → Prop} (hQ : ∀ v, g v → Q v)
    (n : String) (m : Metric) (p : TimePeriod) :
    ∀ (bs : List Bucket) (rec : Option RecordEntry),
      (∀ e, rec = some e → Q e.value) →
      ∀ e, (runPeriods check n m p rec bs).1 = some e → Q e.value := by
  intro bs
  induction bs with
  | nil => intro rec hrec e he; exact hrec e he
  | cons b rest ih =>
    intro rec hrec
    rcases hc rec b.value b.periodStart b.periodEnd with ⟨heq, _⟩ | ⟨heq, hg, _⟩
    · rw [runPeriods, heq]
      exact ih rec hrec
    · rw [runPeriods, heq]
      dsimp only
      refine ih (some ⟨b.value, b.periodStart, b.periodEnd⟩) ?_
      intro e he
      cases he
      exact hQ b.value hg

theorem runPeriods_length {check : Option RecordEntry → ℚ → String → String → CheckResult}
    {g : ℚ → Prop} (hc : CheckOK check g) (n : String) (m : Metric) (p : TimePeriod) :
    ∀ (bs : List Bucket) (rec : Option RecordEntry),
      (runPeriods check n m p rec bs).2.length = slotChanges check rec bs := by
  intro bs
  induction bs with
  | nil => intro rec; rfl
  | cons b rest ih =>
    intro rec
    rcases hc rec b.value b.periodStart b.periodEnd with ⟨heq, _⟩ | ⟨heq, hg, hall⟩
    · rw [runPeriods, slotChanges, heq]
      simp [ih rec]
    · rw [runPeriods, slotChanges, heq]
      have hne : (some ⟨b.value, b.periodStart, b.periodEnd⟩ : Option RecordEntry) ≠ rec := by
        intro hcon
        match rec, hcon with
        | some r, hcon =>
          have hbv : b.value = r.value :=
            congrArg RecordEntry.value (Option.some.inj hcon)
          exact absurd (hall r rfl) (by rw [hbv]; exact lt_irrefl _)
      simp [ih, hne, Nat.add_comm]

/-! ## Lemmas: per-agent processing -/

theorem processAgent_slot {n : String} {dm : List DailyAgentMetrics}
    {ar : AgentRecords} {pr : AgentRecords × List RecordUpdate}
    (h : processAgent n dm ar = some pr) (m : Metric) (p : TimePeriod) :
    ∃ bs, bucketsForAgent dm m p = some bs ∧
      slot pr.1 m p = (runPeriods (checkFor m) n m p (slot ar m p) bs).1 := by
  unfold processAgent at h
  cases hw : aggregateByPeriod dm getWeekStart getWeekEnd with
  | none => rw [hw] at h; exact absurd h (by simp)
  | some w =>
  cases hm : aggregateByPeriod dm getMonthStart getMonthEnd with
  | none => rw [hw, hm] at h; exact absurd h (by simp)
  | some mo =>
  cases hq : aggregateByPeriod dm getQuarterStart getQuarterEnd with
  | none => rw [hw, hm, hq] at h; exact absurd h (by simp)
  | some q =>
  rw [hw, hm, hq] at h
  dsimp only at h
  injection h with h'
  subst h'
  cases m <;> cases p <;>
    simp only [bucketsForAgent, slot, checkFor, hw, hm, hq, Option.map_some'] <;>
    exact ⟨_, rfl, rfl⟩

theorem processAgent_total {n : String} {dm : List DailyAgentMetrics}
    {ar₀ : AgentRecords} {o : AgentRecords × List RecordUpdate}
    (h : processAgent n dm ar₀ = some o) (ar : AgentRecords) :
    ∃ o', processAgent n dm ar = some o' := by
  unfold processAgent at h ⊢
  cases hw : aggregateByPeriod dm getWeekStart getWeekEnd with
  | none => rw [hw] at h; exact absurd h (by simp)
  | some w =>
  cases hm : aggregateByPeriod dm getMonthStart getMonthEnd with
  | none => rw [hw, hm] at h; exact absurd h (by simp)
  | some mo =>
  cases hq : aggregateByPeriod dm getQuarterStart getQuarterEnd with
  | none => rw [hw, hm, hq] at h; exact absurd h (by simp)
  | some q =>
  exact ⟨_, rfl⟩

theorem processAgent_recLE {n : String} {dm : List DailyAgentMetrics}
    {ar : AgentRecords} {pr : AgentRecords × List RecordUpdate}
    (h : processAgent n dm ar = some pr) (m : Metric) (p : TimePeriod) :
    RecLE (slot ar m p) (slot pr.1 m p) := by
  obtain ⟨bs, _, hslot⟩ := processAgent_slot h m p
  rw [hslot]
  exact runPeriods_recLE (checkFor_ok m) n m p bs (slot ar m p)

theorem processAgent_dominates {n : String} {dm : List DailyAgentMetrics}
    {ar : AgentRecords} {pr : AgentRecords × List RecordUpdate}
    (h : processAgent n dm ar = some pr) (m : Metric) (p : TimePeriod)
    (bs : List Bucket) (hbs : bucketsForAgent dm m p = some bs) :
    Dominates (guardOf m) (slot pr.1 m p) bs := by
  obtain ⟨bs', hbs', hslot⟩ := processAgent_slot h m p
  rw [hbs'] at hbs
  injection hbs with hbs
  subst hbs
  rw [hslot]
  exact runPeriods_dominates (checkFor_ok m) n m p bs' (slot ar m p)

theorem processAgent_noop {n : String} {dm : List DailyAgentMetrics}
    {ar₀ : AgentRecords} {o : AgentRecords × List RecordUpdate}
    (hsucc : processAgent n dm ar₀ = some o) (ar : AgentRecords)
    (hdom : ∀ m p bs, bucketsForAgent dm m p = some bs →
      Dominates (guardOf m) (slot ar m p) bs) :
    processAgent n dm ar = some (ar, []) := by
  unfold processAgent at hsucc ⊢
  cases hw : aggregateByPeriod dm getWeekStart getWeekEnd with
  | none => rw [hw] at hsucc; exact absurd hsucc (by simp)
  | some w =>
  cases hm : aggregateByPeriod dm getMonthStart getMonthEnd with
  | none => rw [hw, hm] at hsucc; exact absurd hsucc (by simp)
  | some mo =>
  cases hq : aggregateByPeriod dm getQuarterStart getQuarterEnd with
  | none => rw [hw, hm, hq] at hsucc; exact absurd hsucc (by simp)
  | some q =>
  have hd : ∀ m p bs, bucketsForAgent dm m p = some bs →
      runPeriods (checkFor m) n m p (slot ar m p) bs = (slot ar m p, []) :=
    fun m p bs hbs => runPeriods_noop (checkFor_ok m) n m p bs (slot ar m p) (hdom m p bs hbs)
  have h1 := hd .trips .week (volBuckets w fun p => p.trips) (by simp only [bucketsForAgent, hw, Option.map_some'])
  have h2 := hd .trips .month (volBuckets mo fun p => p.trips) (by simp only [bucketsForAgent, hm, Option.map_some'])
  have h3 := hd .trips .quarter (volBuckets q fun p => p.trips) (by simp only [bucketsForAgent, hq, Option.map_some'])
  have h4 := hd .quotes .week (volBuckets w fun p => p.quotes) (by simp only [bucketsForAgent, hw, Option.map_some'])
  have h5 := hd .quotes .month (volBuckets mo fun p => p.quotes) (by simp only [bucketsForAgent, hm, Option.map_some'])
  have h6 := hd .quotes .quarter (volBuckets q fun p => p.quotes) (by simp only [bucketsForAgent, hq, Option.map_some'])
  have h7 := hd .passthroughs .week (volBuckets w fun p => p.passthroughs) (by simp only [bucketsForAgent, hw, Option.map_some'])
  have h8 := hd .passthroughs .month (volBuckets mo fun p => p.passthroughs) (by simp only [bucketsForAgent, hm, Option.map_some'])
  have h9 := hd .passthroughs .quarter (volBuckets q fun p => p.passthroughs) (by simp only [bucketsForAgent, hq, Option.map_some'])
  have h10 := hd .tq .month (periodRates mo .tq) (by simp only [bucketsForAgent, hm, Option.map_some'])
  have h11 := hd .tq .quarter (periodRates q .tq) (by simp only [bucketsForAgent, hq, Option.map_some'])
  have h12 := hd .tp .month (periodRates mo .tp) (by simp only [bucketsForAgent, hm, Option.map_some'])
  have h13 := hd .tp .quarter (periodRates q .tp) (by simp only [bucketsForAgent, hq, Option.map_some'])
  have h14 := hd .pq .month (periodRates mo .pq) (by simp only [bucketsForAgent, hm, Option.map_some'])
  have h15 := hd .pq .quarter (periodRates q .pq) (by simp only [bucketsForAgent, hq, Option.map_some'])
  simp only [checkFor, slot] at h1 h2 h3 h4 h5 h6 h7 h8 h9 h10 h11 h12 h13 h14 h15
  simp only [h1, h2, h3, h4, h5, h6, h7, h8, h9, h10, h11, h12, h13, h14, h15,
    List.append_nil, List.nil_append]

theorem processAgent_inv {n : String} {dm : List DailyAgentMetrics}
    {ar : AgentRecords} {pr : AgentRecords × List RecordUpdate}
    {Q : ℚ → Prop} {sel : Metric → Prop}
    (hQ : ∀ m, sel m → ∀ v, guardOf m v → Q v)
    (h : processAgent n dm ar = some pr)
    (har : ∀ m p e, sel m → slot ar m p = some e → Q e.value) :
    ∀ m p e, sel m → slot pr.1 m p = some e → Q e.value := by
  intro m p e hsel he
  obtain ⟨bs, _, hslot⟩ := processAgent_slot h m p
  rw [hslot] at he
  exact runPeriods_inv (checkFor_ok m) (hQ m hsel) n m p bs (slot ar m p)
    (fun e' he' => har m p e' hsel he') e he

theorem slot_createEmpty (n : String) (m : Metric) (p : TimePeriod) :
    slot (createEmptyAgentRecords n) m p = none := by
  cases m <;> cases p <;> rfl

/-! ## Lemmas: the analysis pass -/

theorem ARLE_refl (a : Option AgentRecords) : ARLE a a :=
  fun ar h => ⟨ar, h, fun m p => RecLE_refl (slot ar m p)⟩

theorem ARLE_trans {a b c : Option AgentRecords} (h1 : ARLE a b) (h2 : ARLE b c) :
    ARLE a c := by
  intro ar har
  obtain ⟨ar', hb, hle⟩ := h1 ar har
  obtain ⟨ar'', hc, hle'⟩ := h2 ar' hb
  exact ⟨ar'', hc, fun m p => RecLE_trans (hle m p) (hle' m p)⟩

theorem analyzeGo_post :
    ∀ (as : List AgentTimeSeries) (M : String → Option AgentRecords)
      (us : List RecordUpdate)
      {pr : (String → Option AgentRecords) × List RecordUpdate},
      analyzeGo as M us = some pr →
      (∀ n, ARLE (M n) (pr.1 n)) ∧ ∀ a ∈ as, AgentSettled pr.1 a := by
  intro as
  induction as with
  | nil =>
    intro M us pr h
    unfold analyzeGo at h
    injection h with h'
    subst h'
    exact ⟨fun n => ARLE_refl _, fun a ha => absurd ha (List.not_mem_nil a)⟩
  | cons a rest ih =>
    intro M us pr h
    unfold analyzeGo at h
    dsimp only at h
    cases hpa : processAgent a.agentName a.dailyMetrics
        (match M a.agentName with
          | some r => r
          | none => createEmptyAgentRecords a.agentName) with
    | none => rw [hpa] at h; exact absurd h (by simp)
    | some pr2 =>
    rw [hpa] at h
    dsimp only at h
    obtain ⟨hml, hset⟩ := ih _ _ h
    have hstep : ∀ n, ARLE (M n) (if n = a.agentName then some pr2.1 else M n) := by
      intro n
      by_cases hn : n = a.agentName
      · rw [if_pos hn]
        cases hM : M n with
        | none => intro ar har; cases har
        | some ar0 =>
          intro ar har
          injection har with har
          subst har
          refine ⟨pr2.1, rfl, fun m p => ?_⟩
          have hMa : M a.agentName = some ar0 := hn ▸ hM
          rw [hMa] at hpa
          exact processAgent_recLE hpa m p
      · rw [if_neg hn]
        exact ARLE_refl _
    refine ⟨fun n => ARLE_trans (hstep n) (hml n), fun a' ha' => ?_⟩
    rcases List.mem_cons.mp ha' with ha' | ha'
    · subst ha'
      refine ⟨⟨_, pr2, hpa⟩, ?_⟩
      obtain ⟨ar', hpr, hle⟩ := hml a'.agentName pr2.1 (by simp)
      refine ⟨ar', hpr, fun m p bs hbs => ?_⟩
      exact Dominates_mono (hle m p) (processAgent_dominates hpa m p bs hbs)
    · exact hset a' ha'

theorem analyzeGo_noop :
    ∀ (as : List AgentTimeSeries) (M : String → Option AgentRecords)
      (us : List RecordUpdate),
      (∀ a ∈ as, AgentSettled M a) → analyzeGo as M us = some (M, us) := by
  intro as
  induction as with
  | nil => intro M us _; rfl
  | cons a rest ih =>
    intro M us hset
    obtain ⟨⟨ar₀, o, hpa₀⟩, ar, hMa, hdom⟩ := hset a (List.mem_cons_self a rest)
    unfold analyzeGo
    rw [hMa]
    dsimp only
    rw [processAgent_noop hpa₀ ar hdom]
    dsimp only
    have hMeq : (fun n => if n = a.agentName then some ar else M n) = M := by
      funext n
      by_cases hn : n = a.agentName
      · rw [if_pos hn, hn, hMa]
      · rw [if_neg hn]
    rw [hMeq, List.append_nil]
    exact ih M us fun a' ha' => hset a' (List.mem_cons_of_mem a ha')

theorem analyzeGo_inv {Q : ℚ → Prop} {sel : Metric → Prop}
    (hQ : ∀ m, sel m → ∀ v, guardOf m v → Q v) :
    ∀ (as : List AgentTimeSeries) (M : String → Option AgentRecords)
      (us : List RecordUpdate)
      {pr : (String → Option AgentRecords) × List RecordUpdate},
      analyzeGo as M us = some pr →
      (∀ n ar, M n = some ar → ∀ m p e, sel m → slot ar m p = some e → Q e.value) →
      ∀ n ar, pr.1 n = some ar → ∀ m p e, sel m → slot ar m p = some e → Q e.value := by
  intro as
  induction as with
  | nil =>
    intro M us pr h hM
    unfold analyzeGo at h
    injection h with h'
    subst h'
    exact hM
  | cons a rest ih =>
    intro M us pr h hM
    unfold analyzeGo at h
    dsimp only at h
    cases hpa : processAgent a.agentName a.dailyMetrics
        (match M a.agentName with
          | some r => r
          | none => createEmptyAgentRecords a.agentName) with
    | none => rw [hpa] at h; exact absurd h (by simp)
    | some pr2 =>
    rw [hpa] at h
    dsimp only at h
    refine ih _ _ h ?_
    intro n ar har
    by_cases hn : n = a.agentName
    · rw [if_pos hn] at har
      injection har with har
      subst har
      refine processAgent_inv hQ hpa ?_
      cases hMn : M a.agentName with
      | none =>
        intro m p e _ he
        have he' : slot (createEmptyAgentRecords a.agentName) m p = some e := he
        rw [slot_createEmpty] at he'
        cases he'
      | some ar0 =>
        intro m p e hsel he
        have he' : slot ar0 m p = some e := he
        exact hM a.agentName ar0 hMn m p e hsel he' 
    · rw [if_neg hn] at har
      exact hM n ar har

/-! ## Lemmas: `"unknown"`-dated entries -/

theorem aggregateAux_filter (gps gpe : Int → Int) :
    ∀ (dm : List DailyAgentMetrics) (acc : List PeriodData),
      aggregateAux gps gpe acc (dm.filter fun d => decide (d.date ≠ "unknown")) =
        aggregateAux gps gpe acc dm := by
  intro dm
  induction dm with
  | nil => intro acc; rfl
  | cons d rest ih =>
    intro acc
    by_cases hd : d.date = "unknown"
    · have hf : (d :: rest).filter (fun d => decide (d.date ≠ "unknown")) =
          rest.filter fun d => decide (d.date ≠ "unknown") := by
        simp [List.filter_cons, hd]
      rw [hf, ih]
      conv_rhs => rw [aggregateAux]
      rw [if_pos hd]
    · have hf : (d :: rest).filter (fun d => decide (d.date ≠ "unknown")) =
          d :: rest.filter fun d => decide (d.date ≠ "unknown") := by
        simp [List.filter_cons, hd]
      rw [hf]
      conv_lhs => rw [aggregateAux]
      conv_rhs => rw [aggregateAux]
      rw [if_neg hd, if_neg hd]
      cases parseDate d.date with
      | none => rfl
      | some tt => exact ih _

theorem processAgent_filter (n : String) (dm : List DailyAgentMetrics)
    (ar : AgentRecords) :
    processAgent n (dm.filter fun d => decide (d.date ≠ "unknown")) ar =
      processAgent n dm ar := by
  unfold processAgent
  simp only [aggregateByPeriod, aggregateAux_filter]

theorem analyzeGo_strip :
    ∀ (as : List AgentTimeSeries) (M : String → Option AgentRecords)
      (us : List RecordUpdate),
      analyzeGo
        (as.map fun a =>
          { a with dailyMetrics := a.dailyMetrics.filter fun d => decide (d.date ≠ "unknown") })
        M us = analyzeGo as M us := by
  intro as
  induction as with
  | nil => intro M us; rfl
  | cons a rest ih =>
    intro M us
    rw [List.map_cons]
    conv_lhs => rw [analyzeGo]
    conv_rhs => rw [analyzeGo]
    dsimp only
    rw [processAgent_filter]
    cases processAgent a.agentName a.dailyMetrics
        (match M a.agentName with
          | some r => r
          | none => createEmptyAgentRecords a.agentName) with
    | none => rfl
    | some pr2 => exact ih _ _

/-! ## Claims about the records tracker -/

/-- C1.  Records-tracker idempotence: if a pass over `T` starting from ledger
`L` succeeds and returns ledger `p.1` and events `p.2`, a second pass over
the same `T` starting from `p.1` succeeds and returns zero `RecordUpdate`
events. -/
theorem recordsTracker_idempotent (T : TimeSeriesData) (L : AllRecords)
    (p : AllRecords × List RecordUpdate)
    (h : analyzeAndUpdateRecords T L = some p) :
    ∃ q, analyzeAndUpdateRecords T p.1 = some q ∧ q.2 = [] := by
  unfold analyzeAndUpdateRecords at h ⊢
  cases hg : analyzeGo T.agents L.agents [] with
  | none => rw [hg] at h; cases h
  | some pr =>
    obtain ⟨m, us⟩ := pr
    rw [hg] at h
    dsimp only at h
    injection h with h'
    subst h'
    obtain ⟨_, hset⟩ := analyzeGo_post T.agents L.agents [] hg
    rw [analyzeGo_noop T.agents m [] hset]
    exact ⟨_, rfl, rfl⟩

/-- C1 witness: a concrete two-day single-agent input on the empty ledger;
the second pass returns zero events. -/
theorem recordsTracker_idempotent_witness :
    ∃ p, analyzeAndUpdateRecords T0 L0 = some p ∧
      ∃ q, analyzeAndUpdateRecords T0 p.1 = some q ∧ q.2 = [] :=
  ⟨_, rfl, recordsTracker_idempotent T0 L0 _ rfl⟩

/-- C2.  Volume-record strict improvement: a volume check updates exactly
when the bucket value is `> 0` and strictly beats the stored record (no
record counting as beaten); a non-update leaves the slot untouched; a value
equal to the stored record is a no-op with no event; a bucket run emits
exactly one event per actual slot change; and across a full pass every
stored record value is non-decreasing, and positivity of stored volume
records is preserved. -/
theorem volumeRecord_strict_improvement :
    (∀ (rec : Option RecordEntry) (v : ℚ) (ps pe : String),
      ((checkAndUpdateVolumeRecord rec v ps pe).updated = true ↔
        (0 < v ∧ ∀ r, rec = some r → r.value < v)) ∧
      ((checkAndUpdateVolumeRecord rec v ps pe).updated = false →
        (checkAndUpdateVolumeRecord rec v ps pe).newRecord = rec)) ∧
    (∀ (r : RecordEntry) (ps pe : String),
      checkAndUpdateVolumeRecord (some r) r.value ps pe = ⟨false, none, some r⟩) ∧
    (∀ (n : String) (m : Metric) (p : TimePeriod) (rec : Option RecordEntry)
      (bs : List Bucket),
      (runPeriods checkAndUpdateVolumeRecord n m p rec bs).2.length =
        slotChanges checkAndUpdateVolumeRecord rec bs) ∧
    (∀ (T : TimeSeriesData) (L : AllRecords) q,
      analyzeAndUpdateRecords T L = some q →
      (∀ nm ar m p r, L.agents nm = some ar → slot ar m p = some r →
        ∃ ar' r', q.1.agents nm = some ar' ∧ slot ar' m p = some r' ∧
          r.value ≤ r'.value) ∧
      ((∀ nm ar m p e, L.agents nm = some ar → m.isVolume = true →
          slot ar m p = some e → 0 < e.value) →
        ∀ nm ar m p e, q.1.agents nm = some ar → m.isVolume = true →
          slot ar m p = some e → 0 < e.value)) := by
  refine ⟨?_, ?_, ?_, ?_⟩
  · intro rec v ps pe
    constructor
    · constructor
      · intro hu
        rcases checkVol_cases rec v ps pe with ⟨heq, _⟩ | ⟨heq, hv, hall⟩
        · rw [heq] at hu; cases hu
        · exact ⟨hv, hall⟩
      · intro ⟨hv, hall⟩
        rcases checkVol_cases rec v ps pe with ⟨heq, hng⟩ | ⟨heq, _, _⟩
        · exfalso
          rcases hng with hng | ⟨r, hr, hle⟩
          · exact absurd hv (not_lt.mpr hng)
          · exact absurd (hall r hr) (not_lt.mpr hle)
        · rw [heq]
    · intro hu
      rcases checkVol_cases rec v ps pe with ⟨heq, _⟩ | ⟨heq, _, _⟩
      · rw [heq]
      · rw [heq] at hu; cases hu
  · intro r ps pe
    rcases checkVol_cases (some r) r.value ps pe with ⟨heq, _⟩ | ⟨heq, hv, hall⟩
    · exact heq
    · exact absurd (hall r rfl) (lt_irrefl _)
  · intro n m p rec bs
    exact runPeriods_length checkVol_ok n m p bs rec
  · intro T L q h
    unfold analyzeAndUpdateRecords at h
    cases hg : analyzeGo T.agents L.agents [] with
    | none => rw [hg] at h; cases h
    | some pr =>
      obtain ⟨mm, us⟩ := pr
      rw [hg] at h
      dsimp only at h
      injection h with h'
      subst h'
      obtain ⟨harle, _⟩ := analyzeGo_post T.agents L.agents [] hg
      constructor
      · intro nm ar m p r har hslot
        obtain ⟨ar', har', hle⟩ := harle nm ar har
        obtain ⟨r', hr', hvv⟩ := hle m p r hslot
        exact ⟨ar', r', har', hr', hvv⟩
      · intro hL
        have hQ : ∀ (m : Metric), m.isVolume = true → ∀ v, guardOf m v → 0 < v := by
          intro m hm v hg'
          cases m <;> first
            | exact hg'
            | cases hm
        have := analyzeGo_inv hQ T.agents L.agents [] hg
          (fun nm ar har m p e hm he => hL nm ar m p e har hm he)
        exact fun nm ar m p e har hm he => this nm ar har m p e hm he

/-- C2 witness: an empty slot is beaten by 5; a tied value is a no-op; on a
concrete pass over `T0` from the empty ledger, the stored weekly trips
record is positive. -/
theorem volumeRecord_strict_improvement_witness :
    ((checkAndUpdateVolumeRecord none 5 "2024-01-01" "2024-01-07").updated = true) ∧
    (checkAndUpdateVolumeRecord (some ⟨3, "a", "b"⟩) 3 "a" "b" =
      ⟨false, none, some ⟨3, "a", "b"⟩⟩) ∧
    ∃ q, analyzeAndUpdateRecords T0 L0 = some q ∧
      ∃ e, q.1.agents "A" = some AR0 ∧ slot AR0 .trips .week = some e ∧
        0 < e.value := by
  obtain ⟨h1, h2, _, h4⟩ := volumeRecord_strict_improvement
  refine ⟨(h1 none 5 "2024-01-01" "2024-01-07").1.mpr ⟨by norm_num, nofun⟩,
    h2 ⟨3, "a", "b"⟩ "a" "b", ?_⟩
  have hq : ∃ q, analyzeAndUpdateRecords T0 L0 = some q ∧
      q.1.agents "A" = some AR0 := by
    with_unfolding_all exact ⟨_, rfl, rfl⟩
  obtain ⟨q, hq1, hq2⟩ := hq
  have hpos := (h4 T0 L0 q hq1).2 (fun nm ar m p e har => nomatch har) "A" AR0
    .trips .week ⟨3, "2024-01-15", "2024-01-21"⟩ hq2 rfl rfl
  exact ⟨q, hq1, ⟨3, "2024-01-15", "2024-01-21"⟩, hq2, rfl, hpos⟩

/-- C3.  Rate-record bounds: period rates of `≤ 0` are filtered out of
record consideration; a rate `> 200` never changes a slot and emits no
event, also as a bucket inside a run; and a full pass preserves the
invariant that every stored rate record value lies in `(0, 200]`. -/
theorem rateRecord_bounds :
    (∀ (dm : List DailyAgentMetrics) (gps gpe : Int → Int) (rt : Metric) l,
      calculatePeriodRate dm gps gpe rt = some l → ∀ b ∈ l, 0 < b.value) ∧
    (∀ (rec : Option RecordEntry) (v : ℚ) (ps pe : String), 200 < v →
      checkAndUpdateRateRecord rec v ps pe = ⟨false, none, rec⟩) ∧
    (∀ (n : String) (m : Metric) (p : TimePeriod) (rec : Option RecordEntry)
      (b : Bucket) (rest : List Bucket), 200 < b.value →
      runPeriods checkAndUpdateRateRecord n m p rec (b :: rest) =
        runPeriods checkAndUpdateRateRecord n m p rec rest) ∧
    (∀ (T : TimeSeriesData) (L : AllRecords) q,
      analyzeAndUpdateRecords T L = some q →
      (∀ nm ar m p e, L.agents nm = some ar → m.isVolume = false →
        slot ar m p = some e → 0 < e.value ∧ e.value ≤ 200) →
      ∀ nm ar m p e, q.1.agents nm = some ar → m.isVolume = false →
        slot ar m p = some e → 0 < e.value ∧ e.value ≤ 200) := by
  have hrej : ∀ (rec : Option RecordEntry) (v : ℚ) (ps pe : String), 200 < v →
      checkAndUpdateRateRecord rec v ps pe = ⟨false, none, rec⟩ := by
    intro rec v ps pe hv
    unfold checkAndUpdateRateRecord
    rw [if_pos (Or.inr hv)]
  refine ⟨?_, hrej, ?_, ?_⟩
  · intro dm gps gpe rt l h b hb
    unfold calculatePeriodRate at h
    cases hagg : aggregateByPeriod dm gps gpe with
    | none => rw [hagg] at h; cases h
    | some ps =>
      rw [hagg] at h
      dsimp only [Option.map_some'] at h
      injection h with h'
      subst h'
      unfold periodRates at hb
      exact of_decide_eq_true (List.mem_filter.mp hb).2
  · intro n m p rec b rest hv
    rw [runPeriods, hrej rec b.value b.periodStart b.periodEnd hv]
    rfl
  · intro T L q h hL
    unfold analyzeAndUpdateRecords at h
    cases hg : analyzeGo T.agents L.agents [] with
    | none => rw [hg] at h; cases h
    | some pr =>
      obtain ⟨mm, us⟩ := pr
      rw [hg] at h
      dsimp only at h
      injection h with h'
      subst h'
      have hQ : ∀ (m : Metric), m.isVolume = false →
          ∀ v, guardOf m v → 0 < v ∧ v ≤ 200 := by
        intro m hm v hg'
        cases m <;> first
          | exact hg'
          | cases hm
      have := analyzeGo_inv hQ T.agents L.agents [] hg
        (fun nm ar har m p e hm he => hL nm ar m p e har hm he)
      exact fun nm ar m p e har hm he => this nm ar har m p e hm he

/-- C3 witness: a 500% rate is rejected by the check; on the concrete input
`T3` (agent A: one trip, five quotes, a 500% trip→quote rate), the pass from
the empty ledger leaves A's monthly trip→quote slot empty, while agent B's
legitimate 50% rate is stored with a value in `(0, 200]`. -/
theorem rateRecord_bounds_witness :
    (checkAndUpdateRateRecord none 500 "2024-01-01" "2024-01-31" =
      ⟨false, none, none⟩) ∧
    ∃ q, analyzeAndUpdateRecords T3 L0 = some q ∧
      (q.1.agents "A").map (fun ar => ar.tq.month) = some none ∧
      ∃ e, q.1.agents "B" = some AR3B ∧ slot AR3B .tq .month = some e ∧
        0 < e.value ∧ e.value ≤ 200 := by
  obtain ⟨_, h2, _, h4⟩ := rateRecord_bounds
  refine ⟨h2 none 500 "2024-01-01" "2024-01-31" (by norm_num), ?_⟩
  have hq : ∃ q, analyzeAndUpdateRecords T3 L0 = some q ∧
      (q.1.agents "A").map (fun ar => ar.tq.month) = some none ∧
      q.1.agents "B" = some AR3B := by
    with_unfolding_all exact ⟨_, rfl, rfl, rfl⟩
  obtain ⟨q, hq1, hqA, hqB⟩ := hq
  have hin := h4 T3 L0 q hq1 (fun nm ar m p e har => nomatch har) "B" AR3B
    .tq .month ⟨50, "2024-01-01", "2024-01-31"⟩ hqB rfl rfl
  exact ⟨q, hq1, hqA, ⟨50, "2024-01-01", "2024-01-31"⟩, hqB, rfl, hin⟩

/-- C10.  `"unknown"`-dated entries never affect records: period aggregation
ignores them (dropping them from the input leaves the aggregate unchanged),
and the whole analysis pass returns identical ledgers and identical event
lists with or without them. -/
theorem unknownDates_no_effect :
    (∀ (dm : List DailyAgentMetrics) (gps gpe : Int → Int),
      aggregateByPeriod (dm.filter fun d => decide (d.date ≠ "unknown")) gps gpe =
        aggregateByPeriod dm gps gpe) ∧
    ∀ (T : TimeSeriesData) (L : AllRecords),
      analyzeAndUpdateRecords (stripUnknown T) L = analyzeAndUpdateRecords T L := by
  constructor
  · intro dm gps gpe
    unfold aggregateByPeriod
    exact aggregateAux_filter gps gpe dm []
  · intro T L
    unfold analyzeAndUpdateRecords stripUnknown
    rw [analyzeGo_strip]

end RecordsTracker

namespace TimeSeriesUtils

/-! ## Claims about the time-series utilities -/

/-- C4.  Zero-denominator ratio rule: in `calculateDailyRatios`, each derived
ratio equals `numerator/denominator * 100` when its denominator is positive
and is exactly `0` when its denominator is `0`; in particular a day with
`trips = 0` has trip→quote, trip→passthrough, booking (and non-converted)
ratios exactly `0`. -/
theorem dailyRatios_zero_denominator (dm : List DailyAgentMetrics) (i : Nat)
    (m : DailyAgentMetrics) (pt : DailyRatioPoint)
    (hm : dm[i]? = some m) (hpt : (calculateDailyRatios dm)[i]? = some pt) :
    pt.date = m.date ∧
    (0 < m.trips → pt.tq = m.quotes / m.trips * 100 ∧
      pt.tp = m.passthroughs / m.trips * 100 ∧
      pt.bk = m.bookings / m.trips * 100 ∧
      pt.nc = m.nonConverted / m.trips * 100) ∧
    (m.trips = 0 → pt.tq = 0 ∧ pt.tp = 0 ∧ pt.bk = 0 ∧ pt.nc = 0) ∧
    (0 < m.passthroughs → pt.pq = m.quotes / m.passthroughs * 100 ∧
      pt.hp = m.hotPasses / m.passthroughs * 100) ∧
    (m.passthroughs = 0 → pt.pq = 0 ∧ pt.hp = 0) := by
  unfold calculateDailyRatios at hpt
  rw [List.getElem?_map, hm] at hpt
  injection hpt with hpt
  subst hpt
  refine ⟨rfl, ?_, ?_, ?_, ?_⟩
  · intro ht
    simp [if_pos ht]
  · intro ht
    simp [ht]
  · intro hp
    simp [if_pos hp]
  · intro hp
    simp [hp]

/-- C4 witness: a day with `trips = 0` but nonzero other counters has
trip→quote, trip→passthrough and booking ratios exactly `0`, and its
passthrough-denominator ratios are the expected quotients. -/
theorem dailyRatios_zero_denominator_witness :
    ∃ pt, (calculateDailyRatios [⟨"2024-01-15", 0, 5, 2, 1, 3, 4⟩])[0]? = some pt ∧
      pt.tq = 0 ∧ pt.tp = 0 ∧ pt.bk = 0 ∧ pt.pq = 5 / 2 * 100 := by
  obtain ⟨-, -, hz, hpq, -⟩ :=
    dailyRatios_zero_denominator [⟨"2024-01-15", 0, 5, 2, 1, 3, 4⟩] 0
      ⟨"2024-01-15", 0, 5, 2, 1, 3, 4⟩ _ rfl rfl
  obtain ⟨h1, h2, h3, _⟩ := hz rfl
  exact ⟨_, rfl, h1, h2, h3, (hpq (by norm_num)).1⟩

theorem sumForDate_foldl (date : String) :
    ∀ (agents : List AgentTimeSeries) (init : GroupTotals),
      agents.foldl
        (fun acc agent =>
          match agent.dailyMetrics.find? fun m => m.date = date with
          | some d =>
            ⟨acc.trips + d.trips, acc.quotes + d.quotes,
              acc.passthroughs + d.passthroughs, acc.hotPasses + d.hotPasses,
              acc.bookings + d.bookings, acc.nonConverted + d.nonConverted⟩
          | none => acc) init =
      ⟨init.trips + (agents.map (pickOr0 (fun m => m.trips) date)).sum,
        init.quotes + (agents.map (pickOr0 (fun m => m.quotes) date)).sum,
        init.passthroughs + (agents.map (pickOr0 (fun m => m.passthroughs) date)).sum,
        init.hotPasses + (agents.map (pickOr0 (fun m => m.hotPasses) date)).sum,
        init.bookings + (agents.map (pickOr0 (fun m => m.bookings) date)).sum,
        init.nonConverted + (agents.map (pickOr0 (fun m => m.nonConverted) date)).sum⟩ := by
  intro agents
  induction agents with
  | nil =>
    intro init
    simp
  | cons a rest ih =>
    intro init
    rw [List.foldl_cons, ih]
    simp only [List.map_cons, List.sum_cons, pickOr0]
    cases hf : a.dailyMetrics.find? fun m => m.date = date with
    | none => simp
    | some d => simp [add_assoc]

theorem sumForDate_spec (agents : List AgentTimeSeries) (date : String) :
    sumForDate agents date =
      ⟨(agents.map (pickOr0 (fun m => m.trips) date)).sum,
        (agents.map (pickOr0 (fun m => m.quotes) date)).sum,
        (agents.map (pickOr0 (fun m => m.passthroughs) date)).sum,
        (agents.map (pickOr0 (fun m => m.hotPasses) date)).sum,
        (agents.map (pickOr0 (fun m => m.bookings) date)).sum,
        (agents.map (pickOr0 (fun m => m.nonConverted) date)).sum⟩ := by
  unfold sumForDate
  rw [sumForDate_foldl]
  simp

/-- C5.  Group ratios are ratios of sums: an empty agent list yields one
all-zero point per date; a non-empty list yields, per date, the ratio
formulas applied to the per-date sums of the six counters across the agents
(an agent with no entry for a date contributing zero); on the spec's two
agents (trips 10 / quotes 5 and trips 1000 / quotes 100) the group
trip→quote ratio is `105/1010·100`, not the mean of 50 and 10. -/
theorem groupRatios_sum_of_counters :
    (∀ dates : List String, calculateGroupDailyRatios [] dates =
      dates.map fun date => ⟨date, 0, 0, 0, 0, 0, 0⟩) ∧
    (∀ (agents : List AgentTimeSeries) (dates : List String), agents ≠ [] →
      calculateGroupDailyRatios agents dates = dates.map (groupRatioPointSpec agents)) ∧
    (calculateGroupDailyRatios
      [⟨"A", [⟨"2024-01-15", 10, 5, 0, 0, 0, 0⟩]⟩,
        ⟨"B", [⟨"2024-01-15", 1000, 100, 0, 0, 0, 0⟩]⟩]
      ["2024-01-15"]).map (fun p => p.tq) = [105 / 1010 * 100] := by
  refine ⟨fun dates => rfl, ?_, ?_⟩
  · intro agents dates hne
    unfold calculateGroupDailyRatios
    rw [if_neg (by simpa using hne)]
    refine congrArg (List.map · dates) (funext fun date => ?_)
    rw [sumForDate_spec]
    rfl
  · with_unfolding_all rfl

/-- C5 witness: the non-empty case applied to one concrete agent. -/
theorem groupRatios_sum_of_counters_witness :
    calculateGroupDailyRatios [⟨"A", [⟨"2024-01-15", 4, 2, 0, 0, 0, 0⟩]⟩] ["2024-01-15"] =
      ["2024-01-15"].map
        (groupRatioPointSpec [⟨"A", [⟨"2024-01-15", 4, 2, 0, 0, 0, 0⟩]⟩]) :=
  groupRatios_sum_of_counters.2.1 _ _ (List.cons_ne_nil _ _)

/-- C9 counterexample: in `tsd9` agent B exists in the data but has no entry
for `"2024-01-02"`, yet the merged record for that date carries the key
`"B_tq"` with value `0` — the key is zero-filled, not omitted as the claim
states. -/
theorem mergeSeries_zero_fill_counterexample :
    ((tsd9.agents.find? fun a => a.agentName = "B").map fun ag =>
      ag.dailyMetrics.find? fun m => m.date = "2024-01-02") = some none ∧
    (mergeSeriesForChart tsd9 ["B"] [.tq] false false false 0 1).get? 1 =
      some ⟨"2024-01-02", [("B_tq", 0)]⟩ := by
  with_unfolding_all exact ⟨rfl, rfl⟩

/-- C9 amended.  Key-omission in `mergeSeriesForChart`, as the code has it:
a key is present in a merged record exactly when it comes from a selected
agent name that exists in the data (with some selected metric) or from a
group average whose flag is set and whose series has a point for the date;
hence keys are omitted for selected agents absent from the data and for
group averages without data for the date — but a selected agent that exists
in the data and merely lacks an entry for the date is zero-filled: each of
its metric keys is present with value `0`. -/
theorem mergeSeries_omission_amended
    (tsd : TimeSeriesData) (sel : List String) (mets : List MetricKey)
    (d1 d2 d3 : Bool) (s e : Nat) (pt : ChartPoint)
    (hpt : pt ∈ mergeSeriesForChart tsd sel mets d1 d2 d3 s e) :
    (∀ key, (∃ v, (key, v) ∈ pt.fields) ↔
      ((∃ name, name ∈ sel ∧
          (∃ ag, tsd.agents.find? (fun a => a.agentName = name) = some ag) ∧
          ∃ mk, mk ∈ mets ∧ key = name ++ "_" ++ metricKeyStr mk) ∨
        (d1 = true ∧
          (∃ dd, tsd.departmentDaily.find? (fun x => x.date = pt.date) = some dd) ∧
          ∃ mk, mk ∈ mets ∧ key = "dept_" ++ metricKeyStr mk) ∨
        (d2 = true ∧
          (∃ sd, tsd.seniorDaily.find? (fun x => x.date = pt.date) = some sd) ∧
          ∃ mk, mk ∈ mets ∧ key = "senior_" ++ metricKeyStr mk) ∨
        (d3 = true ∧
          (∃ nd, tsd.nonSeniorDaily.find? (fun x => x.date = pt.date) = some nd) ∧
          ∃ mk, mk ∈ mets ∧ key = "nonsenior_" ++ metricKeyStr mk))) ∧
    (∀ name ag, name ∈ sel →
      tsd.agents.find? (fun a => a.agentName = name) = some ag →
      ag.dailyMetrics.find? (fun m => m.date = pt.date) = none →
      ∀ mk, mk ∈ mets → (name ++ "_" ++ metricKeyStr mk, (0 : ℚ)) ∈ pt.fields) := by
  unfold mergeSeriesForChart at hpt
  obtain ⟨date, hdate, hpteq⟩ := List.mem_map.mp hpt
  subst hpteq
  dsimp only
  constructor
  · intro key
    constructor
    · rintro ⟨v, hv⟩
      rcases List.mem_append.mp hv with h | h
      · obtain ⟨name, hname, hin⟩ := List.mem_flatMap.mp h
        cases hfind : tsd.agents.find? fun a => a.agentName = name with
        | none =>
          rw [hfind] at hin
          exact absurd hin (List.not_mem_nil _)
        | some ag =>
          rw [hfind] at hin
          obtain ⟨mk, hmk, heq⟩ := List.mem_map.mp hin
          exact Or.inl ⟨name, hname, ⟨ag, hfind⟩, mk, hmk, (congrArg Prod.fst heq).symm⟩
      · obtain ⟨mk, hmk, hin⟩ := List.mem_flatMap.mp h
        rcases List.mem_append.mp hin with h2 | h3
        · rcases List.mem_append.mp h2 with hA | hB
          · cases hd : d1 with
            | false =>
              rw [hd] at hA
              exact absurd hA (List.not_mem_nil _)
            | true =>
              rw [hd] at hA
              cases hdd : tsd.departmentDaily.find? fun x => x.date = date with
              | none =>
                rw [hdd] at hA
                exact absurd hA (List.not_mem_nil _)
              | some dd =>
                rw [hdd] at hA
                have hA' : (key, v) ∈ [("dept_" ++ metricKeyStr mk, ratioAt dd mk)] := hA
                rw [List.mem_singleton] at hA'
                exact Or.inr (Or.inl ⟨rfl, ⟨dd, rfl⟩, mk, hmk, congrArg Prod.fst hA'⟩)
          · cases hd : d2 with
            | false =>
              rw [hd] at hB
              exact absurd hB (List.not_mem_nil _)
            | true =>
              rw [hd] at hB
              cases hsd : tsd.seniorDaily.find? fun x => x.date = date with
              | none =>
                rw [hsd] at hB
                exact absurd hB (List.not_mem_nil _)
              | some sd =>
                rw [hsd] at hB
                have hB' : (key, v) ∈ [("senior_" ++ metricKeyStr mk, ratioAt sd mk)] := hB
                rw [List.mem_singleton] at hB'
                exact Or.inr (Or.inr (Or.inl ⟨rfl, ⟨sd, rfl⟩, mk, hmk,
                  congrArg Prod.fst hB'⟩))
        · cases hd : d3 with
          | false =>
            rw [hd] at h3
            exact absurd h3 (List.not_mem_nil _)
          | true =>
            rw [hd] at h3
            cases hnd : tsd.nonSeniorDaily.find? fun x => x.date = date with
            | none =>
              rw [hnd] at h3
              exact absurd h3 (List.not_mem_nil _)
            | some nd =>
              rw [hnd] at h3
              have h3' : (key, v) ∈ [("nonsenior_" ++ metricKeyStr mk, ratioAt nd mk)] := h3
              rw [List.mem_singleton] at h3'
              exact Or.inr (Or.inr (Or.inr ⟨rfl, ⟨nd, rfl⟩, mk, hmk,
                congrArg Prod.fst h3'⟩))
    · rintro (⟨name, hname, ⟨ag, hfind⟩, mk, hmk, rfl⟩ |
        ⟨hd1, ⟨dd, hdd⟩, mk, hmk, rfl⟩ |
        ⟨hd2, ⟨sd, hsd⟩, mk, hmk, rfl⟩ |
        ⟨hd3, ⟨nd, hnd⟩, mk, hmk, rfl⟩)
      · refine ⟨agentRatios (ag.dailyMetrics.find? fun m => m.date = date) mk,
          List.mem_append.mpr (Or.inl ?_)⟩
        refine List.mem_flatMap.mpr ⟨name, hname, ?_⟩
        rw [hfind]
        exact List.mem_map.mpr ⟨mk, hmk, rfl⟩
      · subst hd1
        refine ⟨ratioAt dd mk, List.mem_append.mpr (Or.inr ?_)⟩
        refine List.mem_flatMap.mpr
          ⟨mk, hmk, List.mem_append.mpr (Or.inl (List.mem_append.mpr (Or.inl ?_)))⟩
        rw [hdd]
        exact List.mem_singleton.mpr rfl
      · subst hd2
        refine ⟨ratioAt sd mk, List.mem_append.mpr (Or.inr ?_)⟩
        refine List.mem_flatMap.mpr
          ⟨mk, hmk, List.mem_append.mpr (Or.inl (List.mem_append.mpr (Or.inr ?_)))⟩
        rw [hsd]
        exact List.mem_singleton.mpr rfl
      · subst hd3
        refine ⟨ratioAt nd mk, List.mem_append.mpr (Or.inr ?_)⟩
        refine List.mem_flatMap.mpr ⟨mk, hmk, List.mem_append.mpr (Or.inr ?_)⟩
        rw [hnd]
        exact List.mem_singleton.mpr rfl
  · intro name ag hname hfind hday mk hmk
    refine List.mem_append.mpr (Or.inl ?_)
    refine List.mem_flatMap.mpr ⟨name, hname, ?_⟩
    rw [hfind]
    refine List.mem_map.mpr ⟨mk, hmk, ?_⟩
    rw [hday]
    rfl

/-- C9 amended witness: on `tsd9` with agent B selected, the record for
`"2024-01-02"` (where B has no entry) carries the zero-filled key
`"B_tq"`. -/
theorem mergeSeries_omission_amended_witness :
    ∃ pt, (mergeSeriesForChart tsd9 ["B"] [.tq] false false false 0 1).get? 1 =
        some pt ∧
      pt.date = "2024-01-02" ∧ ("B_tq", (0 : ℚ)) ∈ pt.fields := by
  have hget : (mergeSeriesForChart tsd9 ["B"] [.tq] false false false 0 1).get? 1 =
      some ⟨"2024-01-02", [("B_tq", 0)]⟩ := by
    with_unfolding_all rfl
  have hmem : (⟨"2024-01-02", [("B_tq", 0)]⟩ : ChartPoint) ∈
      mergeSeriesForChart tsd9 ["B"] [.tq] false false false 0 1 :=
    List.get?_mem hget
  have hz := (mergeSeries_omission_amended tsd9 ["B"] [.tq] false false false 0 1
    _ hmem).2 "B" ⟨"B", [⟨"2024-01-01", 4, 2, 0, 0, 0, 0⟩]⟩
    (List.mem_singleton.mpr rfl) (by with_unfolding_all rfl)
    (by with_unfolding_all rfl) .tq (List.mem_singleton.mpr rfl)
  exact ⟨_, hget, rfl, hz⟩

end TimeSeriesUtils

namespace Regression

/-! ## Claims about the regression selector -/

theorem meetsThreshold_iff (r : Option RegressionResult) (t : ℚ) :
    meetsThreshold r t = true ↔ ∃ x, r = some x ∧ t ≤ x.rSquared := by
  cases r with
  | none => simp [meetsThreshold]
  | some x => simp [meetsThreshold]

/-- C6.  Model selection of `getBestRegression` (with the transcendental
log-linear fitter abstracted as a parameter): the result is `null` exactly
when neither fit exists with R² at or above the threshold; a single
qualifying model is returned as-is; when both qualify the one with the
higher R² is returned, log-linear winning ties (the comparison is
`logLinear.rSquared >= linear.rSquared`). -/
theorem bestRegression_selection
    (logLinF : List ℚ → List (Option ℚ) → Option RegressionResult)
    (xs : List ℚ) (ys : List (Option ℚ)) (t : ℚ) :
    (getBestRegression logLinF xs ys t = none ↔
      ¬(∃ l, linearRegression xs ys = some l ∧ t ≤ l.rSquared) ∧
      ¬(∃ g, logLinF xs ys = some g ∧ t ≤ g.rSquared)) ∧
    (∀ l, linearRegression xs ys = some l → t ≤ l.rSquared →
      meetsThreshold (logLinF xs ys) t = false →
      getBestRegression logLinF xs ys t = some l) ∧
    (∀ g, logLinF xs ys = some g → t ≤ g.rSquared →
      meetsThreshold (linearRegression xs ys) t = false →
      getBestRegression logLinF xs ys t = some g) ∧
    (∀ l g, linearRegression xs ys = some l → logLinF xs ys = some g →
      t ≤ l.rSquared → t ≤ g.rSquared →
      getBestRegression logLinF xs ys t =
        if l.rSquared ≤ g.rSquared then some g else some l) := by
  refine ⟨?_, ?_, ?_, ?_⟩
  · rw [← meetsThreshold_iff, ← meetsThreshold_iff]
    cases hm1 : meetsThreshold (logLinF xs ys) t with
    | false =>
      cases hm2 : meetsThreshold (linearRegression xs ys) t with
      | false =>
        simp only [getBestRegression, hm1, hm2]
        simp
      | true =>
        obtain ⟨l, hl, htl⟩ := (meetsThreshold_iff _ t).mp hm2
        have hm2' : meetsThreshold (some l) t = true := by
          simpa [meetsThreshold] using htl
        simp only [getBestRegression, hl, hm1, hm2']
        simp
    | true =>
      cases hm2 : meetsThreshold (linearRegression xs ys) t with
      | false =>
        obtain ⟨g, hg, htg⟩ := (meetsThreshold_iff _ t).mp hm1
        have hm1' : meetsThreshold (some g) t = true := by
          simpa [meetsThreshold] using htg
        simp only [getBestRegression, hg, hm1', hm2]
        simp
      | true =>
        obtain ⟨l, hl, htl⟩ := (meetsThreshold_iff _ t).mp hm2
        obtain ⟨g, hg, htg⟩ := (meetsThreshold_iff _ t).mp hm1
        have hm1' : meetsThreshold (some g) t = true := by
          simpa [meetsThreshold] using htg
        have hm2' : meetsThreshold (some l) t = true := by
          simpa [meetsThreshold] using htl
        have hres : getBestRegression logLinF xs ys t =
            if l.rSquared ≤ g.rSquared then some g else some l := by
          simp [getBestRegression, hl, hg, hm1', hm2']
        rw [hres]
        split <;> simp
  · intro l hl htl hmg
    have hml : meetsThreshold (some l) t = true := by
      simpa [meetsThreshold] using htl
    simp [getBestRegression, hl, hml, hmg]
  · intro g hg htg hml
    have hmg : meetsThreshold (some g) t = true := by
      simpa [meetsThreshold] using htg
    simp [getBestRegression, hg, hmg, hml]
  · intro l g hl hg htl htg
    have hml : meetsThreshold (some l) t = true := by
      simpa [meetsThreshold] using htl
    have hmg : meetsThreshold (some g) t = true := by
      simpa [meetsThreshold] using htg
    simp [getBestRegression, hl, hg, hml, hmg]

/-- C6 witness: on a perfect linear series with the log-linear fitter
returning no fit, the linear model is returned; with a constant log-linear
fit of equal R², the tie goes to log-linear. -/
theorem bestRegression_selection_witness :
    getBestRegression (fun _ _ => none) [0, 1] [some 1, some 3] (9 / 10) =
      some ⟨2, 1, 1, [1, 3], .linear⟩ ∧
    getBestRegression (fun _ _ => some ⟨0, 0, 1, [], .logLinear⟩)
        [0, 1] [some 1, some 3] (9 / 10) =
      some ⟨0, 0, 1, [], .logLinear⟩ := by
  have hlin : linearRegression [0, 1] [some 1, some 3] =
      some ⟨2, 1, 1, [1, 3], .linear⟩ := by
    with_unfolding_all rfl
  constructor
  · exact (bestRegression_selection (fun _ _ => none) [0, 1] [some 1, some 3]
      (9 / 10)).2.1 ⟨2, 1, 1, [1, 3], .linear⟩ hlin (by norm_num) rfl
  · have := (bestRegression_selection (fun _ _ => some ⟨0, 0, 1, [], .logLinear⟩)
      [0, 1] [some 1, some 3] (9 / 10)).2.2.2 ⟨2, 1, 1, [1, 3], .linear⟩
      ⟨0, 0, 1, [], .logLinear⟩ hlin rfl (by norm_num) (by norm_num)
    rw [this]
    norm_num

theorem validPairs_length_le (xs : List ℚ) (ys : List (Option ℚ)) :
    (validPairs xs ys).length ≤ xs.length := by
  calc (validPairs xs ys).length ≤ (List.range xs.length).length :=
        List.length_filterMap_le _ _
    _ = xs.length := List.length_range _

theorem lr_none_of_small (xs : List ℚ) (ys : List (Option ℚ))
    (h : (validPairs xs ys).length < 2) : linearRegression xs ys = none := by
  unfold linearRegression
  split
  · rfl
  · rw [if_pos h]

/-- C7.  `linearRegression` totality and filtering: the fit is `null` exactly
when fewer than two index positions carry a finite y (after the NaN filter)
or the x-variance denominator over the valid pairs is below `1e-10` in
absolute value; a successful fit predicts one y for every element of the
original x array (filtered positions included); the fitted slope, intercept
and R² depend only on the valid pairs; and `xs = [5,5,5]` (constant x)
yields no fit. -/
theorem linearRegression_total_filter :
    (∀ (xs : List ℚ) (ys : List (Option ℚ)),
      linearRegression xs ys = none ↔
        (validPairs xs ys).length < 2 ∨
        |lrDenominator (validPairs xs ys)| < 1 / 10000000000) ∧
    (∀ xs ys r, linearRegression xs ys = some r →
      r.predictedValues.length = xs.length) ∧
    (∀ xs ys xs2 ys2, validPairs xs2 ys2 = validPairs xs ys →
      ((linearRegression xs2 ys2).map fun r => (r.slope, r.intercept, r.rSquared)) =
        ((linearRegression xs ys).map fun r => (r.slope, r.intercept, r.rSquared))) ∧
    linearRegression [5, 5, 5] [some 1, some 2, some 3] = none := by
  have hnone : ∀ (xs : List ℚ) (ys : List (Option ℚ)),
      linearRegression xs ys = none ↔
        (validPairs xs ys).length < 2 ∨
        |lrDenominator (validPairs xs ys)| < 1 / 10000000000 := by
    intro xs ys
    by_cases h2 : (validPairs xs ys).length < 2
    · simp [lr_none_of_small xs ys h2, h2]
    · have hx : ¬ xs.length < 2 :=
        fun h => h2 (lt_of_le_of_lt (validPairs_length_le xs ys) h)
      unfold linearRegression
      dsimp only
      rw [if_neg hx, if_neg h2]
      by_cases h3 : |lrDenominator (validPairs xs ys)| < 1 / 10000000000
      · rw [if_pos h3]
        exact iff_of_true rfl (Or.inr h3)
      · rw [if_neg h3]
        exact iff_of_false (by simp) (not_or.mpr ⟨h2, h3⟩)
  refine ⟨hnone, ?_, ?_, ?_⟩
  · intro xs ys r h
    unfold linearRegression at h
    dsimp only at h
    split at h
    · cases h
    · split at h
      · cases h
      · split at h
        · cases h
        · injection h with h
          subst h
          simp [List.length_map]
  · intro xs ys xs2 ys2 hvp
    by_cases h2 : (validPairs xs ys).length < 2
    · rw [lr_none_of_small xs ys h2, lr_none_of_small xs2 ys2 (hvp ▸ h2)]
    · have hx : ¬ xs.length < 2 :=
        fun h => h2 (lt_of_le_of_lt (validPairs_length_le xs ys) h)
      have h2' : ¬ (validPairs xs2 ys2).length < 2 := by rw [hvp]; exact h2
      have hx2 : ¬ xs2.length < 2 :=
        fun h => h2' (lt_of_le_of_lt (validPairs_length_le xs2 ys2) h)
      unfold linearRegression
      dsimp only
      rw [if_neg hx, if_neg hx2, if_neg h2, if_neg (hvp ▸ h2), hvp]
      split <;> simp
  · with_unfolding_all rfl

/-- C7 witness: the constant-x series has no fit, and a four-point series
whose second y is invalid still gets four predicted values. -/
theorem linearRegression_total_filter_witness :
    linearRegression [5, 5, 5] [some 1, some 2, some 3] = none ∧
    ∃ r, linearRegression [0, 1, 2, 3] [some 1, none, some 3, some 7] = some r ∧
      r.predictedValues.length = 4 := by
  obtain ⟨h1, h2, _, _⟩ := linearRegression_total_filter
  refine ⟨(h1 [5, 5, 5] [some 1, some 2, some 3]).mpr (Or.inr ?_), ?_⟩
  · have : lrDenominator (validPairs [5, 5, 5] [some 1, some 2, some 3]) = 0 := by
      with_unfolding_all rfl
    rw [this]
    norm_num
  · have hsome : linearRegression [0, 1, 2, 3] [some 1, none, some 3, some 7] =
        some ⟨13 / 7, 4 / 7, 169 / 196, [4 / 7, 17 / 7, 30 / 7, 43 / 7], .linear⟩ := by
      with_unfolding_all rfl
    exact ⟨_, hsome,
      h2 [0, 1, 2, 3] [some 1, none, some 3, some 7] _ hsome⟩

end Regression

namespace Storage

/-! ## Claims about the storage date parser -/

theorem parseFloat_empty : parseFloat "" = none := rfl

/-- C8.  `parseDate` contract: `null` for `null`/`undefined`/empty-after-
trim input; when the trimmed string parses as a number strictly between
1000 and 100000, the result is that many days after the 1899-12-30 epoch
(in epoch milliseconds); otherwise the generic calendar-date-string
fallback decides, `null` on failure.  Concretely `parse(45000)` is a valid
date and `parse(500)` is `null`.  The embedding is a total function — the
parser never throws. -/
theorem parseDate_contract :
    (parseDate .null = none) ∧
    (parseDate .undefined = none) ∧
    (∀ s : String, jsTrim s = "" → parseDate (.str s) = none) ∧
    (∀ (s : String) (v : ℚ), parseFloat (jsTrim s) = some v →
      1000 < v → v < 100000 →
      parseDate (.str s) = some (EXCEL_EPOCH + v * 86400000)) ∧
    (∀ s : String, jsTrim s ≠ "" →
      (∀ v, parseFloat (jsTrim s) = some v → v ≤ 1000 ∨ 100000 ≤ v) →
      parseDate (.str s) = genericDateParse (jsTrim s)) ∧
    (parseDate (.num 45000) = some (EXCEL_EPOCH + 45000 * 86400000)) ∧
    (parseDate (.num 500) = none) := by
  have hne : ∀ s : String, ∀ v, parseFloat (jsTrim s) = some v → jsTrim s ≠ "" := by
    intro s v hv hcon
    rw [hcon, parseFloat_empty] at hv
    cases hv
  refine ⟨rfl, rfl, ?_, ?_, ?_, ?_, ?_⟩
  · intro s hs
    unfold parseDate
    dsimp only [jsStringOf]
    rw [if_pos hs]
  · intro s v hv h1 h2
    unfold parseDate
    dsimp only [jsStringOf]
    rw [if_neg (hne s v hv), hv]
    unfold parseExcelSerial
    dsimp only
    rw [if_neg (not_or.mpr ⟨not_le.mpr h1, not_le.mpr h2⟩)]
  · intro s hs hout
    unfold parseDate
    dsimp only [jsStringOf]
    rw [if_neg hs]
    cases hv : parseFloat (jsTrim s) with
    | none => rfl
    | some v =>
      unfold parseExcelSerial
      dsimp only
      rw [if_pos (hout v hv)]
  · with_unfolding_all rfl
  · with_unfolding_all rfl

/-- C8 witness: whitespace-only input is `null`; the string `"45000"` takes
the spreadsheet-serial branch. -/
theorem parseDate_contract_witness :
    parseDate (.str "  ") = none ∧
    parseDate (.str "45000") = some (EXCEL_EPOCH + 45000 * 86400000) := by
  obtain ⟨-, -, h3, h4, -, -, -⟩ := parseDate_contract
  refine ⟨h3 "  " (by with_unfolding_all rfl), ?_⟩
  exact h4 "45000" 45000 (by with_unfolding_all rfl) (by norm_num) (by norm_num)

end Storage

end GTT
